import Mathlib

set_option maxRecDepth 4000

/-!
Verification development for the tesla-order-status derivation core.

The Python sources under src/app are shallowly embedded below.  Python's
dynamically typed values are modelled by the inductive type PyVal; machine
floats are modelled by exact rationals (on the decimal token domains
exercised here the binary64 value of a short decimal literal is handled
identically); code that can raise is modelled in Except.  Unicode-aware
Python string methods (strip/upper/lower) are modelled on the ASCII
subset, which covers every constant and every input considered here.
-/

deriving instance DecidableEq for Except

/-- Python-like dynamic value: None, bool, int, str, list, dict. -/
inductive PyVal where
  | none
  | bool (b : Bool)
  | int (n : Int)
  | str (s : String)
  | list (xs : List PyVal)
  | dict (xs : List (String × PyVal))

/-- Python truthiness of a value. -/
def PyVal.truthy : PyVal → Bool
  | .none => false
  | .bool b => b
  | .int n => n != 0
  | .str s => s != ""
  | .list xs => !xs.isEmpty
  | .dict xs => !xs.isEmpty

/-- Python `a or b` (value-returning, first truthy operand). -/
def pyOr (a b : PyVal) : PyVal := if a.truthy then a else b

/-- ASCII whitespace, the characters stripped by Python str.strip(). -/
def isWs (c : Char) : Bool :=
  c = ' ' || c = '\t' || c = '\n' || c = '\r' || c = '\x0b' || c = '\x0c'

def isDigitCh (c : Char) : Bool := '0' ≤ c && c ≤ '9'

def isAsciiAlpha (c : Char) : Bool :=
  ('a' ≤ c && c ≤ 'z') || ('A' ≤ c && c ≤ 'Z')

def trimLeftChars (l : List Char) : List Char := l.dropWhile isWs

def trimRightChars (l : List Char) : List Char := (l.reverse.dropWhile isWs).reverse

/-- Model of Python str.strip() on the ASCII subset. -/
def stripChars (l : List Char) : List Char := trimRightChars (trimLeftChars l)

def upperChars (l : List Char) : List Char := l.map Char.toUpper

def lowerChars (l : List Char) : List Char := l.map Char.toLower

/-- Model of Python str.split() (split on whitespace runs, no empties).
The accumulator holds the current token (reversed) when inside one. -/
def splitWsAux : List Char → Option (List Char) → List (List Char)
  | [], Option.none => []
  | [], some acc => [acc.reverse]
  | c :: cs, Option.none =>
      if isWs c then splitWsAux cs Option.none else splitWsAux cs (some [c])
  | c :: cs, some acc =>
      if isWs c then acc.reverse :: splitWsAux cs Option.none
      else splitWsAux cs (some (c :: acc))

def splitWs (l : List Char) : List (List Char) := splitWsAux l Option.none

/-- Model of re.split over a one-character-class-run pattern `[..]+`:
empty tokens at the borders are kept, runs split once.  The state is
none while scanning a separator run, some acc inside a token. -/
def splitRunsAux (p : Char → Bool) : List Char → Option (List Char) → List (List Char)
  | [], Option.none => [[]]
  | [], some acc => [acc.reverse]
  | c :: cs, Option.none =>
      if p c then splitRunsAux p cs Option.none else splitRunsAux p cs (some [c])
  | c :: cs, some acc =>
      if p c then acc.reverse :: splitRunsAux p cs Option.none
      else splitRunsAux p cs (some (c :: acc))

def reSplitRuns (p : Char → Bool) (l : List Char) : List (List Char) :=
  splitRunsAux p l (some [])

/-- Python str.replace(",", " "). -/
def replaceCommaBySpace (l : List Char) : List Char :=
  l.map (fun c => if c = ',' then ' ' else c)

/-- Decimal digits of n, least significant first; fuel-driven so that it
is structurally recursive (fuel ≥ n suffices). -/
def natToRevDigitsFuel : Nat → Nat → List Nat
  | 0, _ => []
  | f + 1, n => if n = 0 then [] else n % 10 :: natToRevDigitsFuel f (n / 10)

def digitChar (d : Nat) : Char := Char.ofNat (48 + d)

/-- Decimal rendering of a natural number (Python str/int formatting). -/
def natToChars (n : Nat) : List Char :=
  if n = 0 then ['0'] else ((natToRevDigitsFuel n n).map digitChar).reverse

def intToChars (i : Int) : List Char :=
  (if i < 0 then ['-'] else []) ++ natToChars i.natAbs

def charsToNat (l : List Char) : Nat :=
  l.foldl (fun a c => 10 * a + (c.toNat - 48)) 0

/-- Exact (unreduced) fraction num/den used to model Python floats:
every operation below keeps den positive, no gcd reduction is performed,
so all arithmetic stays kernel-computable.  On the short decimal tokens
handled here the binary64 value and the exact fraction agree for every
comparison the source performs. -/
structure Q where
  num : Int
  den : Nat

def qOfInt (i : Int) : Q := ⟨i, 1⟩

def qSub (a b : Q) : Q := ⟨a.num * b.den - b.num * a.den, a.den * b.den⟩

def qAbs (a : Q) : Q := ⟨|a.num|, a.den⟩

/-- Strict comparison a < b by cross multiplication (dens positive). -/
def qLtb (a b : Q) : Bool := a.num * (b.den : Int) < b.num * (a.den : Int)

def qMulPow10 (a : Q) (k : Nat) : Q := ⟨a.num * (10 : Int) ^ k, a.den⟩

def qDivPow10 (a : Q) (k : Nat) : Q := ⟨a.num, a.den * 10 ^ k⟩

def qNeg (a : Q) : Q := ⟨-a.num, a.den⟩

/-- Interpretation of a model fraction as a rational (for the proofs). -/
def qToRat (a : Q) : Rat := (a.num : Rat) / (a.den : Rat)

/-- Python round() on an exact fraction with positive denominator:
nearest integer, ties to even.  n is the floor, r2 the numerator of
twice the fractional part over den. -/
def pyRound (q : Q) : Int :=
  let d : Int := (q.den : Int)
  let n : Int := Int.ediv q.num d
  let r2 : Int := 2 * (q.num - n * d)
  if r2 < d then n else if d < r2 then n + 1 else if n % 2 = 0 then n else n + 1

/-- Python float(token) for a finite result, modelled exactly:
optional sign, integer digits, optional fraction, optional exponent.
Tokens such as "inf"/"nan" fall to none exactly as the source treats them
(it raises on non-finite floats); digit-group underscores are not modelled. -/
def pyFloatFinite (l : List Char) : Option Q :=
  let signed : Bool × List Char :=
    match l with
    | '-' :: r => (true, r)
    | '+' :: r => (false, r)
    | r => (false, r)
  let neg := signed.1
  let ip := signed.2.takeWhile isDigitCh
  let rest1 := signed.2.dropWhile isDigitCh
  let frac : Option (List Char) × List Char :=
    match rest1 with
    | '.' :: r => (some (r.takeWhile isDigitCh), r.dropWhile isDigitCh)
    | r => (Option.none, r)
  let fpEmpty : Bool := match frac.1 with | Option.none => true | some f => f.isEmpty
  if ip.isEmpty && fpEmpty then Option.none
  else
    let mant : Q :=
      match frac.1 with
      | some f => ⟨(charsToNat ip : Int) * 10 ^ f.length + (charsToNat f : Int), 10 ^ f.length⟩
      | Option.none => ⟨(charsToNat ip : Int), 1⟩
    let signedMant : Q := if neg then qNeg mant else mant
    match frac.2 with
    | [] => some signedMant
    | 'e' :: r => pyFloatExp signedMant r
    | 'E' :: r => pyFloatExp signedMant r
    | _ => Option.none
where
  /-- Exponent suffix of a float literal: optional sign then digits. -/
  pyFloatExp (mant : Q) (r : List Char) : Option Q :=
    let esigned : Bool × List Char :=
      match r with
      | '-' :: r2 => (true, r2)
      | '+' :: r2 => (false, r2)
      | r2 => (false, r2)
    let ed := esigned.2.takeWhile isDigitCh
    let rest := esigned.2.dropWhile isDigitCh
    if ed.isEmpty || !rest.isEmpty then Option.none
    else
      some (if esigned.1 then qDivPow10 mant (charsToNat ed) else qMulPow10 mant (charsToNat ed))

/-- Thousands grouping: commas every three digits from the right
(operates on a reversed digit list; k counts digits since last comma). -/
def commateRev : List Char → Nat → List Char
  | [], _ => []
  | c :: cs, k =>
      if k = 3 then ',' :: c :: commateRev cs 1 else c :: commateRev cs (k + 1)

def group3 (l : List Char) : List Char := (commateRev l.reverse 0).reverse

/-- Python f-string "\x7bn:,d\x7d" for an integer. -/
def formatIntGroupedChars (i : Int) : List Char :=
  (if i < 0 then ['-'] else []) ++ group3 (natToChars i.natAbs)

def pad2 (n : Nat) : List Char := if n < 10 then '0' :: natToChars n else natToChars n

/-- Python f-string "\x7bq:,.2f\x7d": two decimals, grouped integer part. -/
def formatQ2Chars (q : Q) : List Char :=
  let n := pyRound (qMulPow10 q 2)
  (if n < 0 then ['-'] else []) ++
    group3 (natToChars (n.natAbs / 100)) ++ '.' :: pad2 (n.natAbs % 100)

mutual
/-- Python repr(); string escaping inside repr is not modelled
(no theorem below depends on it). -/
def pyRepr : PyVal → String
  | .none => "None"
  | .bool true => "True"
  | .bool false => "False"
  | .int n => String.mk (intToChars n)
  | .str s => "\x27" ++ s ++ "\x27"
  | .list xs => "[" ++ ", ".intercalate (pyReprList xs) ++ "]"
  | .dict xs => "\x7b" ++ ", ".intercalate (pyReprDict xs) ++ "\x7d"

def pyReprList : List PyVal → List String
  | [] => []
  | v :: vs => pyRepr v :: pyReprList vs

def pyReprDict : List (String × PyVal) → List String
  | [] => []
  | kv :: vs => ("\x27" ++ kv.1 ++ "\x27: " ++ pyRepr kv.2) :: pyReprDict vs
end

/-- Python str(): identity on strings, repr-like elsewhere. -/
def pyStr : PyVal → String
  | .str s => s
  | v => pyRepr v

/-- Python `value in (None, "", [], \x7b\x7d)` as used by the mileage
formatter (equality against those four literals). -/
def isMileageEmptyInput : PyVal → Bool
  | .none => true
  | .str "" => true
  | .list [] => true
  | .dict [] => true
  | _ => false

/-- Python `value in (None, "")`. -/
def isNoneOrEmptyStr : PyVal → Bool
  | .none => true
  | .str "" => true
  | _ => false

/-- Embedding of src/app/utils.py format_vehicle_mileage.  The IndexError
that Python raises when the comma/whitespace split of a non-empty text
yields no token is modelled in Except. -/
def format_vehicle_mileage (value unit : PyVal) : Except String (Option String) :=
  if isMileageEmptyInput value then .ok Option.none
  else
    let text := stripChars (pyStr value).data
    if text.isEmpty then .ok Option.none
    else
      match splitWs (replaceCommaBySpace text) with
      | [] => .error "IndexError"
      | token :: _ =>
        match pyFloatFinite token with
        | Option.none => .ok (some (String.mk text))
        | some numeric =>
          let formatted_number : List Char :=
            if qLtb (qAbs (qSub numeric (qOfInt (pyRound numeric)))) ⟨1, 100⟩ then
              formatIntGroupedChars (pyRound numeric)
            else formatQ2Chars numeric
          let unit_token := String.mk (lowerChars (stripChars (pyStr (pyOr unit (.str "mi"))).data))
          let suffix : List Char :=
            if unit_token ∈ ["km", "kilometer", "kilometers", "kilometre", "kilometres"] then
              "km".data
            else if unit_token ∈ ["mi", "mile", "miles"] then "mi".data
            else
              match unit with
              | .str u => if (stripChars u.data).isEmpty then "mi".data else stripChars u.data
              | _ => "mi".data
          .ok (some (String.mk (formatted_number ++ ' ' :: suffix)))

/-- Embedding of src/app/main.py _format_vehicle_mileage, the duplicated
copy of the mileage normalizer. -/
def _format_vehicle_mileage (value unit : PyVal) : Except String (Option String) :=
  if isMileageEmptyInput value then .ok Option.none
  else
    let text := stripChars (pyStr value).data
    if text.isEmpty then .ok Option.none
    else
      match splitWs (replaceCommaBySpace text) with
      | [] => .error "IndexError"
      | token :: _ =>
        match pyFloatFinite token with
        | Option.none => .ok (some (String.mk text))
        | some numeric =>
          let formatted_number : List Char :=
            if qLtb (qAbs (qSub numeric (qOfInt (pyRound numeric)))) ⟨1, 100⟩ then
              formatIntGroupedChars (pyRound numeric)
            else formatQ2Chars numeric
          let unit_token := String.mk (lowerChars (stripChars (pyStr (pyOr unit (.str "mi"))).data))
          let suffix : List Char :=
            if unit_token ∈ ["km", "kilometer", "kilometers", "kilometre", "kilometres"] then
              "km".data
            else if unit_token ∈ ["mi", "mile", "miles"] then "mi".data
            else
              match unit with
              | .str u => if (stripChars u.data).isEmpty then "mi".data else stripChars u.data
              | _ => "mi".data
          .ok (some (String.mk (formatted_number ++ ' ' :: suffix)))

def joinWithChar (sep : Char) : List (List Char) → List Char
  | [] => []
  | [t] => t
  | t :: ts => t ++ sep :: joinWithChar sep ts

/-- Gregorian leap year. -/
def isLeap (y : Nat) : Bool := (y % 4 = 0 && y % 100 != 0) || y % 400 = 0

def daysInMonth (y m : Nat) : Nat :=
  if m = 2 then (if isLeap y then 29 else 28)
  else if m = 4 || m = 6 || m = 9 || m = 11 then 30
  else 31

/-- Result of datetime.fromisoformat: naive fields plus an optional
UTC-offset in seconds. -/
structure PyDateTime where
  year : Nat
  month : Nat
  day : Nat
  hour : Nat
  minute : Nat
  second : Nat
  micro : Nat
  tzSeconds : Option Int
deriving DecidableEq

/-- Exactly k decimal digits from the front, with their value. -/
def parseDigitsN : Nat → List Char → Option (Nat × List Char)
  | 0, l => some (0, l)
  | _ + 1, [] => Option.none
  | k + 1, c :: cs =>
      if isDigitCh c then
        match parseDigitsN k cs with
        | some (v, rest) => some ((c.toNat - 48) * 10 ^ k + v, rest)
        | Option.none => Option.none
      else Option.none

/-- Optional timezone suffix +HH:MM[:SS] or -HH:MM[:SS]; must end the string. -/
def parseTzSuffix (l : List Char) : Option (Option Int) :=
  match l with
  | [] => some Option.none
  | sign :: rest =>
    if sign = '+' || sign = '-' then
      match parseDigitsN 2 rest with
      | some (oh, ':' :: rest2) =>
        match parseDigitsN 2 rest2 with
        | some (om, rest3) =>
          if oh ≤ 23 && om ≤ 59 then
            let base : Int := (oh : Int) * 3600 + (om : Int) * 60
            match rest3 with
            | [] => some (some (if sign = '-' then -base else base))
            | ':' :: rest4 =>
              match parseDigitsN 2 rest4 with
              | some (os, []) =>
                if os ≤ 59 then
                  some (some (if sign = '-' then -(base + os) else base + os))
                else Option.none
              | _ => Option.none
            | _ => Option.none
          else Option.none
        | Option.none => Option.none
      | _ => Option.none
    else Option.none

/-- Fractional-second suffix: 1 to 6 digits scaled to microseconds. -/
def parseFracMicro (l : List Char) : Option (Nat × List Char) :=
  let ds := l.takeWhile isDigitCh
  if ds.isEmpty || ds.length > 6 then Option.none
  else some (charsToNat ds * 10 ^ (6 - ds.length), l.dropWhile isDigitCh)

/-- Time-of-day part HH[:MM[:SS[.ffffff]]] with optional timezone. -/
def parseIsoTime (l : List Char) : Option (Nat × Nat × Nat × Nat × Option Int) :=
  match parseDigitsN 2 l with
  | Option.none => Option.none
  | some (hh, rest) =>
    let next : Option (Nat × Nat × Nat × List Char) :=
      match rest with
      | ':' :: r1 =>
        match parseDigitsN 2 r1 with
        | Option.none => Option.none
        | some (mm, r2) =>
          match r2 with
          | ':' :: r3 =>
            match parseDigitsN 2 r3 with
            | Option.none => Option.none
            | some (ss, r4) =>
              match r4 with
              | '.' :: r5 =>
                (parseFracMicro r5).map (fun fm => (mm, ss, fm.1, fm.2))
              | ',' :: r5 =>
                (parseFracMicro r5).map (fun fm => (mm, ss, fm.1, fm.2))
              | _ => some (mm, ss, 0, r4)
          | _ => some (mm, 0, 0, r2)
      | _ => some (0, 0, 0, rest)
    match next with
    | Option.none => Option.none
    | some (mm, ss, fm, rest2) =>
      match parseTzSuffix rest2 with
      | Option.none => Option.none
      | some tz =>
        if hh ≤ 23 && mm ≤ 59 && ss ≤ 59 then some (hh, mm, ss, fm, tz) else Option.none

/-- Model of datetime.fromisoformat on the classic ISO-8601 shapes
YYYY-MM-DD[(T| )HH[:MM[:SS[.ffffff]]][+HH:MM[:SS]]] with calendar
validation.  The rarely used compact digit forms of newer CPython are
not modelled; every timestamp this repository builds or reads is of the
classic shape. -/
def fromisoformatChars (l : List Char) : Option PyDateTime :=
  match parseDigitsN 4 l with
  | some (y, '-' :: r1) =>
    (match parseDigitsN 2 r1 with
     | some (mo, '-' :: r2) =>
       (match parseDigitsN 2 r2 with
        | some (d, r3) =>
          if 1 ≤ y && 1 ≤ mo && mo ≤ 12 && 1 ≤ d && d ≤ daysInMonth y mo then
            match r3 with
            | [] => some ⟨y, mo, d, 0, 0, 0, 0, Option.none⟩
            | sep :: r4 =>
              if sep = 'T' || sep = ' ' then
                match parseIsoTime r4 with
                | some (hh, mm, ss, fm, tz) => some ⟨y, mo, d, hh, mm, ss, fm, tz⟩
                | Option.none => Option.none
              else Option.none
          else Option.none
        | _ => Option.none)
     | _ => Option.none)
  | _ => Option.none

def monthAbbrevName (m : Nat) : String :=
  match m with
  | 1 => "Jan" | 2 => "Feb" | 3 => "Mar" | 4 => "Apr" | 5 => "May" | 6 => "Jun"
  | 7 => "Jul" | 8 => "Aug" | 9 => "Sep" | 10 => "Oct" | 11 => "Nov" | _ => "Dec"

/-- strftime("%d %b %Y %H:%M") (the year prints unpadded; every year
appearing here has four digits, where padding makes no difference). -/
def strftimeDMYHM (dt : PyDateTime) : String :=
  String.mk (pad2 dt.day) ++ " " ++ monthAbbrevName dt.month ++ " " ++
    String.mk (natToChars dt.year) ++ " " ++
    String.mk (pad2 dt.hour) ++ ":" ++ String.mk (pad2 dt.minute)

/-- datetime.isoformat() for the parsed value. -/
def pyIsoformat (dt : PyDateTime) : String :=
  let base :=
    String.mk (natToChars dt.year) ++ "-" ++ String.mk (pad2 dt.month) ++ "-" ++
      String.mk (pad2 dt.day) ++ "T" ++ String.mk (pad2 dt.hour) ++ ":" ++
      String.mk (pad2 dt.minute) ++ ":" ++ String.mk (pad2 dt.second)
  let withMicro :=
    if dt.micro = 0 then base
    else base ++ "." ++ String.mk ((natToChars dt.micro).reverse.takeD 6 '0').reverse
  match dt.tzSeconds with
  | Option.none => withMicro
  | some off =>
    let sign := if off < 0 then "-" else "+"
    let a := off.natAbs
    let hhmm :=
      String.mk (pad2 (a / 3600)) ++ ":" ++ String.mk (pad2 (a % 3600 / 60))
    let s := a % 60
    withMicro ++ sign ++ hhmm ++ (if s = 0 then "" else ":" ++ String.mk (pad2 s))

/-- Calendar date (year, month, day) with lexicographic order. -/
def dateLe (a b : Nat × Nat × Nat) : Bool :=
  a.1 < b.1 || (a.1 = b.1 && (a.2.1 < b.2.1 || (a.2.1 = b.2.1 && a.2.2 ≤ b.2.2)))

def dtDate (dt : PyDateTime) : Nat × Nat × Nat := (dt.year, dt.month, dt.day)

/-- Trailing-Z normalization shared by the timestamp helpers:
raw[:-1] + "+00:00" when raw ends with "Z". -/
def zNormalize (raw : List Char) : List Char :=
  if raw.getLast? = some 'Z' then raw.dropLast ++ "+00:00".data else raw

/-- Embedding of src/app/utils.py format_timestamp. -/
def format_timestamp (value : PyVal) : Option String :=
  if !value.truthy then Option.none
  else
    let raw := zNormalize (pyStr value).data
    match fromisoformatChars raw with
    | some dt => some (strftimeDMYHM dt)
    | Option.none => some (pyStr value)

/-- Embedding of src/app/utils.py format_date_only. -/
def format_date_only (value : PyVal) : Option String :=
  match format_timestamp value with
  | Option.none => Option.none
  | some formatted =>
    if formatted = "" then Option.none
    else
      let tokens := splitWs formatted.data
      if tokens.length ≥ 3 then
        some (String.mk (joinWithChar ' ' (tokens.take 3)))
      else some formatted

/-- Embedding of src/app/main.py _format_timestamp (duplicate copy). -/
def _format_timestamp (value : PyVal) : Option String :=
  if !value.truthy then Option.none
  else
    let raw := zNormalize (pyStr value).data
    match fromisoformatChars raw with
    | some dt => some (strftimeDMYHM dt)
    | Option.none => some (pyStr value)

/-- Embedding of src/app/main.py _format_date_only (duplicate copy). -/
def _format_date_only (value : PyVal) : Option String :=
  match _format_timestamp value with
  | Option.none => Option.none
  | some formatted =>
    if formatted = "" then Option.none
    else
      let tokens := splitWs formatted.data
      if tokens.length ≥ 3 then
        some (String.mk (joinWithChar ' ' (tokens.take 3)))
      else some formatted

/-- Python str.title() on ASCII: a letter is upper-cased after a
non-letter, lower-cased after a letter. -/
def pyTitleAux : List Char → Bool → List Char
  | [], _ => []
  | c :: cs, prevAlpha =>
    if isAsciiAlpha c then
      (if prevAlpha then c.toLower else c.toUpper) :: pyTitleAux cs true
    else c :: pyTitleAux cs false

def pyTitle (l : List Char) : List Char := pyTitleAux l false

/-- Embedding of the scrub_text helper local to build_order_progress. -/
def scrub_text (value : PyVal) : Option String :=
  if isNoneOrEmptyStr value then Option.none
  else
    let text := stripChars (pyStr value).data
    if text.isEmpty then Option.none else some (String.mk text)

/-- Greedy match of \d+(?:\.\d+)? at the head (head is a digit). -/
def matchNumHere (l : List Char) : List Char :=
  let ds := l.takeWhile isDigitCh
  match l.dropWhile isDigitCh with
  | '.' :: r =>
    if (r.head?.map isDigitCh).getD false then ds ++ '.' :: r.takeWhile isDigitCh else ds
  | _ => ds

/-- re.search(r"-?\d+(?:\.\d+)?", text): leftmost match. -/
def searchSignedDec : List Char → Option (List Char)
  | [] => Option.none
  | c :: cs =>
    if isDigitCh c then some (matchNumHere (c :: cs))
    else if c = '-' && (cs.head?.map isDigitCh).getD false then
      some ('-' :: matchNumHere cs)
    else searchSignedDec cs

/-- Embedding of the parse_numeric helper local to build_order_progress.
Python treats bool as an int here (isinstance(value, (int, float))).
An OverflowError on an astronomically large int is not modelled. -/
def parse_numeric (value : PyVal) : Option Q :=
  if isNoneOrEmptyStr value then Option.none
  else
    match value with
    | .bool b => some (qOfInt (if b then 1 else 0))
    | .int n => some (qOfInt n)
    | _ =>
      let text := stripChars (pyStr value).data
      if text.isEmpty then Option.none
      else
        let cleaned := text.filter (fun c => c ≠ ',')
        match searchSignedDec cleaned with
        | Option.none => Option.none
        | some m => pyFloatFinite m

/-- Embedding of the parse_iso_datetime helper local to build_order_progress. -/
def parse_iso_datetime (value : PyVal) : Option PyDateTime :=
  if isNoneOrEmptyStr value then Option.none
  else fromisoformatChars (zNormalize (stripChars (pyStr value).data))

def isCodeAlnum (c : Char) : Bool := ('A' ≤ c && c ≤ 'Z') || isDigitCh c

/-- Embedding of the normalize_code_token helper local to
build_order_progress: uppercase, collapse runs of non-alphanumerics to a
single underscore, strip outer underscores. -/
def normalize_code_token (value : PyVal) : Option String :=
  if isNoneOrEmptyStr value then Option.none
  else
    let up := upperChars (stripChars (pyStr value).data)
    let subbed := joinWithChar '_' (reSplitRuns (fun c => !isCodeAlnum c) up)
    let stripped := ((subbed.dropWhile (fun c => c = '_')).reverse.dropWhile
        (fun c => c = '_')).reverse
    if stripped.isEmpty then Option.none else some (String.mk stripped)

/-- Embedding of src/app/utils.py describe_code (shared fallback
humanizer); a falsy input is returned unchanged, like the source. -/
def describe_code (value : PyVal) (mapping : List (String × String)) : PyVal :=
  if !value.truthy then value
  else
    let key := String.mk (upperChars (pyStr value).data)
    match mapping.lookup key with
    | some label => .str label
    | Option.none =>
      .str (String.mk (pyTitle (key.data.map (fun c => if c = '_' then ' ' else c))))

/-- REGISTRATION_STATUS_DESCRIPTIONS from src/app/constants.py. -/
def REGISTRATION_STATUS_DESCRIPTIONS : List (String × String) :=
  [("NOT_STARTED", "Registration not started"),
   ("IN_PROGRESS", "Registration in progress"),
   ("SUBMITTED", "Registration submitted"),
   ("APPROVED", "Registration approved"),
   ("COMPLETED", "Registration completed"),
   ("PENDING", "Registration pending review")]

/-- Embedding of src/app/main.py _describe_registration_status. -/
def _describe_registration_status (value : PyVal) : PyVal :=
  describe_code value REGISTRATION_STATUS_DESCRIPTIONS

/-- MONTH_ABBREVIATIONS from src/app/constants.py. -/
def MONTH_ABBREVIATIONS : List (String × String) :=
  [("JAN", "Jan"), ("JANUARY", "Jan"), ("FEB", "Feb"), ("FEBRUARY", "Feb"),
   ("MAR", "Mar"), ("MARCH", "Mar"), ("APR", "Apr"), ("APRIL", "Apr"),
   ("MAY", "May"), ("JUN", "Jun"), ("JUNE", "Jun"), ("JUL", "Jul"),
   ("JULY", "Jul"), ("AUG", "Aug"), ("AUGUST", "Aug"), ("SEP", "Sep"),
   ("SEPT", "Sep"), ("SEPTEMBER", "Sep"), ("OCT", "Oct"), ("OCTOBER", "Oct"),
   ("NOV", "Nov"), ("NOVEMBER", "Nov"), ("DEC", "Dec"), ("DECEMBER", "Dec")]

/-- Embedding of src/app/utils.py abbreviate_month_token. -/
def abbreviate_month_token (token : String) : Option String :=
  let cleaned := (upperChars token.data).filter (fun c => 'A' ≤ c && c ≤ 'Z')
  if cleaned.isEmpty then Option.none
  else
    match MONTH_ABBREVIATIONS.lookup (String.mk cleaned) with
    | some m => some m
    | Option.none =>
      match MONTH_ABBREVIATIONS.lookup (String.mk (cleaned.take 3)) with
      | some m => some m
      | Option.none => some (String.mk ((pyTitle cleaned).take 3))

/-- Embedding of src/app/main.py _abbreviate_month_token (duplicate copy). -/
def _abbreviate_month_token (token : String) : Option String :=
  let cleaned := (upperChars token.data).filter (fun c => 'A' ≤ c && c ≤ 'Z')
  if cleaned.isEmpty then Option.none
  else
    match MONTH_ABBREVIATIONS.lookup (String.mk cleaned) with
    | some m => some m
    | Option.none =>
      match MONTH_ABBREVIATIONS.lookup (String.mk (cleaned.take 3)) with
      | some m => some m
      | Option.none => some (String.mk ((pyTitle cleaned).take 3))

/-- Optional ordinal suffix (?:st|nd|rd|th)? case-insensitively:
some rest when a suffix is present. -/
def ordSuffixSplit (l : List Char) : Option (List Char) :=
  match l with
  | a :: b :: rest =>
    let t := [a.toLower, b.toLower]
    if t = ['s', 't'] || t = ['n', 'd'] || t = ['r', 'd'] || t = ['t', 'h'] then some rest
    else Option.none
  | _ => Option.none

def takeLetters (l : List Char) : List Char := l.takeWhile isAsciiAlpha

/-- Tail of the day-first alternative: \s+ then [A-Za-z]{3,};
returns (month letters, remainder). -/
def windowAlt1Tail (rest : List Char) : Option (List Char × List Char) :=
  if (rest.takeWhile isWs).isEmpty then Option.none
  else
    let rest2 := rest.dropWhile isWs
    let letters := takeLetters rest2
    if letters.length ≥ 3 then some (letters, rest2.drop letters.length) else Option.none

/-- Day digits matched; try the optional ordinal suffix greedily, then
without it (regex backtracking order). -/
def windowAlt1WithDay (day rest : List Char) : Option (List Char × List Char × List Char) :=
  match ordSuffixSplit rest with
  | some rest2 =>
    (match windowAlt1Tail rest2 with
     | some (m, rem) => some (day, m, rem)
     | Option.none =>
       match windowAlt1Tail rest with
       | some (m, rem) => some (day, m, rem)
       | Option.none => Option.none)
  | Option.none =>
    match windowAlt1Tail rest with
    | some (m, rem) => some (day, m, rem)
    | Option.none => Option.none

/-- Day-first alternative of WINDOW_DATE_PATTERN:
(?P<day_first>\d{1,2})(?:st|nd|rd|th)?\s+(?P<month_first>[A-Za-z]{3,});
day digits are matched greedily (two, then one). -/
def windowAlt1 (l : List Char) : Option (List Char × List Char × List Char) :=
  match l with
  | [] => Option.none
  | c1 :: rest1 =>
    if !isDigitCh c1 then Option.none
    else
      let try2 : Option (List Char × List Char × List Char) :=
        match rest1 with
        | c2 :: rest2 =>
          if isDigitCh c2 then windowAlt1WithDay [c1, c2] rest2 else Option.none
        | [] => Option.none
      match try2 with
      | some r => some r
      | Option.none => windowAlt1WithDay [c1] rest1

/-- Month-first alternative of WINDOW_DATE_PATTERN:
(?P<month_second>[A-Za-z]{3,})\s+(?P<day_second>\d{1,2})(?:st|nd|rd|th)?;
returns (month, day, remainder). -/
def windowAlt2 (l : List Char) : Option (List Char × List Char × List Char) :=
  let letters := takeLetters l
  if letters.length < 3 then Option.none
  else
    let rest := l.drop letters.length
    if (rest.takeWhile isWs).isEmpty then Option.none
    else
      let rest2 := rest.dropWhile isWs
      match rest2 with
      | [] => Option.none
      | c1 :: r1 =>
        if !isDigitCh c1 then Option.none
        else
          let dayRest : List Char × List Char :=
            match r1 with
            | c2 :: r2 => if isDigitCh c2 then ([c1, c2], r2) else ([c1], r1)
            | [] => ([c1], r1)
          let rem :=
            match ordSuffixSplit dayRest.2 with
            | some r => r
            | Option.none => dayRest.2
          some (letters, dayRest.1, rem)

/-- finditer over WINDOW_DATE_PATTERN: leftmost non-overlapping matches,
day-first alternative preferred; yields (dayFirst, day, month).  Fuel is
the length of the text (every match consumes at least one character). -/
def windowFindAux : Nat → List Char → List (Bool × List Char × List Char)
  | 0, _ => []
  | f + 1, l =>
    match l with
    | [] => []
    | _ :: cs =>
      match windowAlt1 l with
      | some (d, m, rest) => (true, d, m) :: windowFindAux f rest
      | Option.none =>
        match windowAlt2 l with
        | some (m, d, rest) => (false, d, m) :: windowFindAux f rest
        | Option.none => windowFindAux f cs

def windowFinditer (l : List Char) : List (Bool × List Char × List Char) :=
  windowFindAux l.length l

/-- The (month_abbrev, day_value) pairs collected by the shortening loop,
which stops once two pairs are found. -/
def windowPairs (text : List Char) : List (String × Nat) :=
  ((windowFinditer text).filterMap (fun md =>
      match abbreviate_month_token (String.mk md.2.2) with
      | Option.none => Option.none
      | some ab => some (ab, charsToNat md.2.1))).take 2

/-- f"{day:02d} {month}" of the source's format_day_month. -/
def formatDayMonth (month : String) (day : Nat) : String :=
  String.mk (pad2 day) ++ " " ++ month

/-- Whitespace normalization " ".join(str(value).split()). -/
def normalizeWsText (value : PyVal) : List Char :=
  joinWithChar ' ' (splitWs (pyStr value).data)

/-- Embedding of src/app/utils.py shorten_delivery_window_display. -/
def shorten_delivery_window_display (value : PyVal) : Option String :=
  if isNoneOrEmptyStr value then Option.none
  else
    let text := normalizeWsText value
    if text.isEmpty then Option.none
    else
      match windowPairs text with
      | (m1, d1) :: (m2, d2) :: _ =>
        let sd := formatDayMonth m1 d1
        let ed := formatDayMonth m2 d2
        if sd = ed then some sd else some (sd ++ " - " ++ ed)
      | _ => Option.none

/-- Embedding of src/app/main.py _shorten_delivery_window_display
(duplicate copy). -/
def _shorten_delivery_window_display (value : PyVal) : Option String :=
  if isNoneOrEmptyStr value then Option.none
  else
    let text := normalizeWsText value
    if text.isEmpty then Option.none
    else
      match windowPairs text with
      | (m1, d1) :: (m2, d2) :: _ =>
        let sd := formatDayMonth m1 d1
        let ed := formatDayMonth m2 d2
        if sd = ed then some sd else some (sd ++ " - " ++ ed)
      | _ => Option.none

/-- Stable insertion sort (model of Python sorted with a boolean le). -/
def insertLe (le : String → String → Bool) (x : String) : List String → List String
  | [] => [x]
  | y :: ys => if le y x then y :: insertLe le x ys else x :: y :: ys

def insSortStr (le : String → String → Bool) : List String → List String
  | [] => []
  | x :: xs => insertLe le x (insSortStr le xs)

/-- Code-point lexicographic order on char lists (Python str compare). -/
def charsLtb : List Char → List Char → Bool
  | [], [] => false
  | [], _ :: _ => true
  | _ :: _, [] => false
  | a :: as, b :: bs => if a = b then charsLtb as bs else decide (a < b)

def strLeb (a b : String) : Bool := !charsLtb b.data a.data

/-- Char-list versions of startswith / substring containment
(Python `in` on strings). -/
def startsWithChars : List Char → List Char → Bool
  | _, [] => true
  | [], _ :: _ => false
  | h :: hs, n :: ns => h = n && startsWithChars hs ns

def containsChars : List Char → List Char → Bool
  | [], needle => needle.isEmpty
  | h :: hs, needle => startsWithChars (h :: hs) needle || containsChars hs needle

/-- De-duplication preserving first occurrence (Python dict.fromkeys). -/
def dedupFirstAux : List String → List String → List String
  | [], _ => []
  | x :: xs, seen =>
      if seen.contains x then dedupFirstAux xs seen else x :: dedupFirstAux xs (x :: seen)

def dedupFirst (l : List String) : List String := dedupFirstAux l []

/-- OPTION_CODE_SPLITTER = re.compile(r"[,;|\\s]+"): inside the raw-string
character class the escaped backslash and the letter s are literal
characters, so the class is exactly { , ; | backslash s }. -/
def isOptionSplitChar (c : Char) : Bool :=
  c = ',' || c = ';' || c = '|' || c = '\\' || c = 's'

/-- Embedding of src/app/utils.py normalize_option_code. -/
def normalize_option_code (value : PyVal) : Option String :=
  if isNoneOrEmptyStr value then Option.none
  else
    let text := upperChars (stripChars (pyStr value).data)
    if text.isEmpty then Option.none
    else
      let text2 := match text with
                   | '$' :: rest => rest
                   | _ => text
      if text2.isEmpty then Option.none else some (String.mk text2)

/-- Embedding of src/app/utils.py split_option_codes. -/
def split_option_codes (blob : PyVal) : List String :=
  if !blob.truthy then []
  else
    let candidates : Option (List PyVal) :=
      match blob with
      | .str s => some ((reSplitRuns isOptionSplitChar s.data).map (fun t => PyVal.str (String.mk t)))
      | .list xs => some xs
      | .dict xs => some (xs.map (fun kv => kv.2))
      | _ => Option.none
    match candidates with
    | Option.none => []
    | some cs => cs.filterMap normalize_option_code

def MARKET_OPTION_CATALOG : List (String × String × String) :=
  [("MDL3", "Vehicle", "Model 3 Platform"),
("MDLY", "Vehicle", "Model Y Platform"),
("MDLS", "Vehicle", "Model S Platform"),
("MDLX", "Vehicle", "Model X Platform"),
("MTS03", "Manufacturing", "Model S Long Range"),
("MTS07", "Manufacturing", "Model S Long Range Plus"),
("MTS11", "Manufacturing", "Model S Plaid"),
("MTX03", "Manufacturing", "Model X Long Range"),
("MTX04", "Manufacturing", "Model X Performance"),
("MTX07", "Manufacturing", "Model X Long Range Plus"),
("MTX11", "Manufacturing", "Model X Plaid"),
("MT300", "Manufacturing", "Model 3 Standard Range RWD"),
("MT301", "Manufacturing", "Model 3 Standard Range Plus RWD"),
("MT302", "Manufacturing", "Model 3 Long Range RWD"),
("MT303", "Manufacturing", "Model 3 Long Range AWD"),
("MT304", "Manufacturing", "Model 3 Long Range Performance"),
("MT323", "Manufacturing", "Model 3 Long Range AWD (refresh)"),
("MT353", "Manufacturing", "Model 3 Performance Highland"),
("ADPX0", "Drive", "Rear-wheel drive single motor"),
("ADPX1", "Drive", "Long Range dual motor"),
("ADPX2", "Drive", "Performance dual motor"),
("DUALMOTOR", "Drive", "Dual Motor AWD badging"),
("DV4W", "Drive", "Dual motor all-wheel drive"),
("P3WS", "Performance", "Performance Upgrade Package"),
("MT322", "Manufacturing", "Model year 2022 Q2 build"),
("MT337", "Manufacturing", "Model year 2023 Q4 build"),
("MTY01", "Manufacturing", "Model Y Standard Range RWD"),
("MTY02", "Manufacturing", "Model Y Long Range RWD"),
("MTY03", "Manufacturing", "Model Y Long Range AWD"),
("MTY04", "Manufacturing", "Model Y Performance AWD"),
("MTY05", "Manufacturing", "Model Y Performance"),
("MTY47", "Manufacturing", "Model Y LR AWD (LG 5L pack)"),
("MTY62", "Manufacturing", "Model Y LR AWD (LG 5M pack)"),
("TM00", "Towing", "Towing package deleted"),
("TOW1", "Towing", "Factory tow package"),
("BT37", "Battery", "Long Range battery pack"),
("BT38", "Battery", "Standard Range battery pack"),
("BT42", "Battery", "4680 structural battery pack"),
("BP00", "Battery", "No Ludicrous upgrade"),
("PPSW", "Paint", "Pearl White Multi-Coat paint"),
("PPMR", "Paint", "Red Multi-Coat paint"),
("PMNG", "Paint", "Midnight Silver Metallic paint"),
("PPSB", "Paint", "Deep Blue Metallic paint"),
("PMBL", "Paint", "Obsidian Black Metallic paint"),
("PMTL", "Paint", "Titanium Metallic paint"),
("PBCW", "Paint", "Solid Black paint"),
("PB02", "Paint", "Marine Blue"),
("WTAS", "Wheels", "19\" Sport Wheels"),
("W38B", "Wheels", "18\" Aero Wheels"),
("W39B", "Wheels", "19\" Sport Wheels"),
("W40B", "Wheels", "20\" Induction Wheels"),
("W41B", "Wheels", "20\" Gemini Wheels"),
("WTUR", "Wheels", "21\" Ãœberturbine Wheels"),
("WY19P", "Wheels", "19\" Crossflow Wheels"),
("ST33", "Suspension", "All-season tires"),
("SU3C", "Suspension", "Coil suspension setup"),
("IN3PB", "Interior", "Premium all-black interior"),
("IN3PW", "Interior", "Premium black & white interior"),
("INYPB", "Interior", "Model Y black interior"),
("INYPW", "Interior", "Model Y black & white interior"),
("IPB8", "Interior", "Premium all-black interior"),
("IL31", "Interior", "Interior ambient lighting"),
("AU3P", "Interior", "Premium audio system"),
("AF02", "Interior", "Subzero weather / heated components"),
("ST01", "Seating", "Front heated seats"),
("RSF1", "Seating", "Rear heated seats"),
("RSF2", "Seating", "Second row seat heaters"),
("STY5S", "Seating", "MY 5 Seat Interior"),
("APBS", "Software", "Basic Autopilot"),
("APF0", "Software", "Autopilot hardware with no features"),
("APF1", "Software", "Autopilot convenience features"),
("APF2", "Software", "Enhanced Autopilot"),
("APF3", "Software", "Full Self-Driving computer (HW3)"),
("APPB", "Software", "Full Self-Driving capability"),
("ACC1", "Connectivity", "Premium connectivity"),
("CPF0", "Connectivity", "Premium connectivity (trial)"),
("CPF1", "Connectivity", "Premium connectivity (1 year included)"),
("SC04", "Charging", "Pay-as-you-go Supercharging"),
("SC05", "Charging", "Free unlimited Supercharging"),
("FR04", "Hardware", "HEPA filter & Bioweapon Defense Mode"),
("HM31", "Hardware", "Power folding, heated side mirrors"),
("HL32", "Hardware", "Matrix LED headlights"),
("PI01", "Hardware", "Premium audio amplifier"),
("DRLH", "Hardware", "Left-hand drive configuration"),
("DRRH", "Hardware", "Right-hand drive configuration"),
("OPPF", "Protection", "Factory paint protection film"),
("BC3R", "Hardware", "Performance red brake calipers")]

def catalogLookup (code : String) : Option (String × String) :=
  MARKET_OPTION_CATALOG.lookup code

/-- Embedding of src/app/utils.py infer_option_hint over the ordered
OPTION_HINT_RULES regex table (all rules are anchored prefix tests). -/
def infer_option_hint (code : String) : String × String :=
  if code = "" then ("Option", "Unrecognized option")
  else if startsWithChars code.data "PP".data || startsWithChars code.data "PM".data || startsWithChars code.data "PBC".data ||
      startsWithChars code.data "PRS".data || startsWithChars code.data "PBS".data then
    ("Paint", "Exterior paint option")
  else if (match code.data with | 'W' :: c :: _ => isDigitCh c | _ => false) then
    ("Wheels", "Wheel package")
  else if startsWithChars code.data "IN".data then ("Interior", "Interior trim or material")
  else if startsWithChars code.data "AP".data || startsWithChars code.data "FS".data || startsWithChars code.data "FSD".data ||
      startsWithChars code.data "EAP".data then
    ("Software", "Autopilot or software package")
  else if startsWithChars code.data "SC".data then ("Charging", "Supercharging config")
  else if startsWithChars code.data "MDL".data || startsWithChars code.data "MDY".data || startsWithChars code.data "MDX".data then
    ("Vehicle", "Model designation")
  else if startsWithChars code.data "BT".data then ("Battery", "Battery configuration")
  else if startsWithChars code.data "ST".data || startsWithChars code.data "RS".data then
    ("Seating", "Seat or interior comfort")
  else if startsWithChars code.data "HP".data || startsWithChars code.data "DU".data || startsWithChars code.data "MT".data then
    ("Performance", "Drive-unit or performance upgrade")
  else if startsWithChars code.data "PK".data || startsWithChars code.data "PRM".data then
    ("Package", "Equipment package")
  else if startsWithChars code.data "HM".data || startsWithChars code.data "FR".data || startsWithChars code.data "HL".data ||
      startsWithChars code.data "FG".data then
    ("Hardware", "Hardware feature")
  else ("Option", "Custom configuration")

/-- Insertion-ordered category grouping (defaultdict(list) appends). -/
def groupedInsert (cat entry : String) : List (String × List String) → List (String × List String)
  | [] => [(cat, [entry])]
  | (c, vs) :: rest =>
      if c = cat then (c, vs ++ [entry]) :: rest else (c, vs) :: groupedInsert cat entry rest

def groupedBuild : List String → List (String × List String) → List String →
    List (String × List String) × List String
  | [], g, unknown => (g, unknown)
  | code :: rest, g, unknown =>
    match catalogLookup code with
    | some (category, nm) =>
        let entry := if containsChars nm.data code.data then nm else nm ++ " (" ++ code ++ ")"
        groupedBuild rest (groupedInsert category entry g) unknown
    | Option.none => groupedBuild rest g (unknown ++ [code])

/-- Candidate code extraction of describe_market_options for each blob
shape (string split on [,;|\s]+ with \s the real whitespace class). -/
def describeMarketCandidates (option_blob : PyVal) : List String :=
  match option_blob with
  | .str s =>
      (reSplitRuns (fun c => c = ',' || c = ';' || c = '|' || isWs c) s.data).filterMap
        (fun t =>
          if (stripChars t).isEmpty then Option.none
          else some (String.mk (upperChars (stripChars t))))
  | .list xs =>
      xs.filterMap (fun code =>
        if !code.truthy then Option.none
        else some (String.mk (upperChars (stripChars (pyStr code).data))))
  | .dict xs =>
      let possible := pyOr (pyOr ((xs.lookup "optionCodes").getD PyVal.none)
          ((xs.lookup "options").getD PyVal.none)) ((xs.lookup "codes").getD PyVal.none)
      match possible with
      | .list ys =>
          ys.filterMap (fun code =>
            if !code.truthy then Option.none
            else some (String.mk (upperChars (stripChars (pyStr code).data))))
      | _ =>
          xs.filterMap (fun kv =>
            match kv.2 with
            | .str v => some (String.mk (upperChars (stripChars v.data)))
            | _ => Option.none)
  | _ => []

/-- Embedding of src/app/utils.py describe_market_options, returning the
label/value item list. -/
def describe_market_options (option_blob : PyVal) : List (String × String) :=
  if !option_blob.truthy then []
  else
    let codes := describeMarketCandidates option_blob
    if codes.isEmpty then []
    else
      let gb := groupedBuild codes [] []
      let groupedSorted :=
        (insSortStr strLeb (gb.1.map (fun kv => kv.1))).filterMap
          (fun c => (gb.1.lookup c).map (fun vs => (c, vs)))
      let items :=
        groupedSorted.filterMap (fun kv =>
          if kv.2.isEmpty then Option.none
          else some (kv.1 ++ " Options", ", ".intercalate (dedupFirst kv.2)))
      let unknownItems :=
        (dedupFirst (insSortStr strLeb gb.2)).map (fun code =>
          let hint := infer_option_hint code
          (hint.1, hint.2 ++ " (" ++ code ++ ")"))
      items ++ unknownItems

/-- Python dict .get(key, default): raises AttributeError on a
non-mapping receiver, modelled in Except. -/
def pyDictGet (d : PyVal) (k : String) (default : PyVal) : Except String PyVal :=
  match d with
  | .dict xs => .ok ((xs.lookup k).getD default)
  | _ => .error "AttributeError"

/-- Python `a or b` over possibly-raising operands with short-circuit:
the right operand's error is never reached when the left is truthy. -/
def pyOrM (a b : Except String PyVal) : Except String PyVal := do
  let va ← a
  if va.truthy then pure va else b

def isDictB : PyVal → Bool
  | .dict _ => true
  | _ => false

/-- The flat mapping produced by unpack_order_data. -/
structure UnpackedContext where
  order : PyVal
  details : PyVal
  tasks : PyVal
  scheduling : PyVal
  registration : PyVal
  final_payment : PyVal
  final_payment_data : PyVal
  delivery_details : PyVal

/-- Embedding of src/app/utils.py unpack_order_data, in source statement
order; each .get can raise when its receiver is a truthy non-mapping. -/
def unpack_order_data (order_entry : PyVal) : Except String UnpackedContext := do
  let order0 ← pyDictGet order_entry "order" (.dict [])
  let order := pyOr order0 (.dict [])
  let details0 ← pyDictGet order_entry "details" (.dict [])
  let details := pyOr details0 (.dict [])
  let tasks0 ← pyDictGet details "tasks" (.dict [])
  let tasks := pyOr tasks0 (.dict [])
  let fp0 ← pyDictGet tasks "finalPayment" (.dict [])
  let final_payment := pyOr fp0 (.dict [])
  let final_payment_data ←
    match final_payment with
    | .dict _ => pyDictGet final_payment "data" (.dict [])
    | _ => pure (PyVal.dict [])
  let scheduling0 ← pyDictGet tasks "scheduling" (.dict [])
  let registration0 ← pyDictGet tasks "registration" (.dict [])
  let delivery0 ← pyDictGet tasks "deliveryDetails" (.dict [])
  pure ⟨order, details, tasks, pyOr scheduling0 (.dict []), pyOr registration0 (.dict []),
        final_payment, final_payment_data, pyOr delivery0 (.dict [])⟩

/-- Option-string helpers mirroring Python truthiness on Optional[str]. -/
def optStrTruthy : Option String → Bool
  | some s => s ≠ ""
  | Option.none => false

def optStrToPy : Option String → PyVal
  | some s => .str s
  | Option.none => .none

/-- Python `a or b` where a is an Optional[str] and b a str. -/
def orOptStr (a : Option String) (b : String) : String :=
  match a with
  | some s => if s ≠ "" then s else b
  | Option.none => b

/-- Wrappers local to build_order_progress:
format_timestamp(value) if value not in (None, "") else None. -/
def bopFormatTimestamp (value : PyVal) : Option String :=
  if isNoneOrEmptyStr value then Option.none else _format_timestamp value

def bopFormatDateOnly (value : PyVal) : Option String :=
  if isNoneOrEmptyStr value then Option.none else _format_date_only value

/-- One stage record before state assignment: the dict built by
build_order_progress, with has_eta present only on in_transit. -/
structure PreStage where
  key : String
  label : String
  description : String
  completed : Bool
  timestamp : Option String
  meta_label : Option String
  meta_value : PyVal
  has_eta : Option Bool

/-- A stage after the state-assignment pass. -/
structure Stage where
  key : String
  label : String
  description : String
  completed : Bool
  timestamp : Option String
  meta_label : Option String
  meta_value : PyVal
  has_eta : Option Bool
  state : String
  state_label : String

/-- The dictionary returned by build_order_progress. -/
structure Progress where
  stages : List Stage
  completed : Nat
  total : Nat
  percent : Int
  active_index : Nat

/-- The raw field values read from the envelope by build_order_progress,
in source statement order (the only later raising operation, the
mileage formatting, is also performed here at its source position). -/
structure ProgressFields where
  odometer_raw : PyVal
  odometer_unit : PyVal
  odometer_display : Option String
  order_placed_raw : PyVal
  vin_raw : PyVal
  vin_assigned_raw : PyVal
  production_ts_raw : PyVal
  eta_raw : PyVal
  appt_primary_raw : PyVal
  window_fallback_raw : PyVal
  ready_fallback_raw : PyVal
  order_status_raw : PyVal
  delivered_ts_raw : PyVal
  registration_status_raw : PyVal
  reggie_raw : PyVal
  registration_ts_raw : PyVal

/-- The envelope reads of build_order_progress (main.py 1078-1240) in
statement order.  The appointment fallback chain of line 1197 is read
unconditionally here: when it is reached in the source, scheduling is
already known to be a mapping (line 1182 ran), so no raise can be
skipped by hoisting it out of its `or`. -/
def extractProgressFields (order_entry : PyVal) : Except String ProgressFields := do
  let order0 ← pyDictGet order_entry "order" (.dict [])
  let order := pyOr order0 (.dict [])
  let details0 ← pyDictGet order_entry "details" (.dict [])
  let details := pyOr details0 (.dict [])
  let tasks0 ← pyDictGet details "tasks" (.dict [])
  let tasks := pyOr tasks0 (.dict [])
  let scheduling0 ← pyDictGet tasks "scheduling" (.dict [])
  let scheduling := pyOr scheduling0 (.dict [])
  let registration0 ← pyDictGet tasks "registration" (.dict [])
  let registration := pyOr registration0 (.dict [])
  let rd0 ← pyDictGet registration "orderDetails" (.dict [])
  let registration_details := pyOr rd0 (.dict [])
  let delivery0 ← pyDictGet tasks "deliveryDetails" (.dict [])
  let delivery_details := pyOr delivery0 (.dict [])
  let drd0 ← pyDictGet delivery_details "regData" (.dict [])
  let delivery_reg_data := pyOr drd0 (.dict [])
  let fp0 ← pyDictGet tasks "finalPayment" (.dict [])
  let final_payment := pyOr fp0 (.dict [])
  let final_payment_data ←
    match final_payment with
    | .dict _ => pyDictGet final_payment "data" (.dict [])
    | _ => pure (PyVal.dict [])
  let order_status_raw ← pyDictGet order "orderStatus" .none
  let odometer_raw ← pyOrM (pyDictGet registration_details "vehicleOdometer" .none)
      (pyOrM (pyDictGet details "vehicleOdometer" .none) (pyDictGet order "vehicleOdometer" .none))
  let odometer_unit ← pyOrM (pyDictGet registration_details "vehicleOdometerType" .none)
      (pyOrM (pyDictGet details "vehicleOdometerType" .none)
        (pyDictGet order "vehicleOdometerType" .none))
  let odometer_display ←
    match _format_vehicle_mileage odometer_raw odometer_unit with
    | .ok v => pure v
    | .error e => throw e
  let order_placed_raw ← pyOrM (pyDictGet registration_details "orderPlacedDate" .none)
      (pyDictGet order "orderPlacedDate" .none)
  let vin_raw ← pyDictGet order "vin" .none
  let vin_assigned_raw ← pyOrM (pyDictGet order "vinAssignmentDate" .none)
      (pyOrM (pyDictGet order "vinMatchedDate" .none)
        (pyDictGet registration_details "vinAssignmentDate" .none))
  let production_ts_raw ← pyOrM (pyDictGet order "vehicleProductionDate" .none)
      (pyOrM (pyDictGet order "vehicleBuildDate" .none)
        (pyDictGet order "buildCompletionDate" .none))
  let eta_raw ← pyOrM (pyDictGet final_payment_data "etaToDeliveryCenter" .none)
      (pyDictGet order "eta" .none)
  let appt_primary_raw ← pyDictGet scheduling "apptDateTimeAddressStr" .none
  let window_fallback_raw ← pyOrM (pyDictGet scheduling "deliveryWindowDisplay" .none)
      (pyDictGet scheduling "deliveryWindow" .none)
  let ready_fallback_raw ← pyOrM (pyDictGet scheduling "appointmentDateUtc" .none)
      (pyOrM (pyDictGet scheduling "appointmentDate" .none)
        (pyDictGet scheduling "apptDateTime" .none))
  let delivered_ts_raw ← pyOrM (pyDictGet order "deliveryDate" .none)
      (pyOrM (pyDictGet order "deliveredOn" .none) (pyDictGet order "deliveredDate" .none))
  let registration_status_raw ← pyOrM (pyDictGet registration_details "registrationStatus" .none)
      (pyDictGet registration "status" .none)
  let reggie_raw ← pyOrM (pyDictGet delivery_reg_data "reggieLicensePlate" .none)
      (pyOrM (pyDictGet registration "reggieLicensePlate" .none)
        (pyDictGet registration_details "reggieLicensePlate" .none))
  let registration_ts_raw ← pyOrM (pyDictGet registration_details "registrationCompletionDate" .none)
      (pyOrM (pyDictGet registration_details "registrationStartDate" .none)
        (pyDictGet registration "startedOn" .none))
  pure ⟨odometer_raw, odometer_unit, odometer_display, order_placed_raw, vin_raw,
        vin_assigned_raw, production_ts_raw, eta_raw, appt_primary_raw, window_fallback_raw,
        ready_fallback_raw, order_status_raw, delivered_ts_raw, registration_status_raw,
        reggie_raw, registration_ts_raw⟩

def firstIncompleteIdx : List PreStage → Nat
  | [] => 0
  | s :: rest => if s.completed then 1 + firstIncompleteIdx rest else 0

/-- One iteration of the state-assignment loop (main.py 1309-1322):
state from completion and the active index, then the in_transit
override, applied to the stage at position idx. -/
def assignOne (fi idx : Nat) (s : PreStage) : Stage :=
  let st :=
    if s.completed then ("complete", "Complete")
    else if idx = fi then ("active", "In Progress")
    else ("upcoming", "Pending")
  let st2 :=
    if s.key = "in_transit" && !s.completed && !(s.has_eta.getD false) then
      ("upcoming", "Pending")
    else st
  ⟨s.key, s.label, s.description, s.completed, s.timestamp, s.meta_label, s.meta_value,
    s.has_eta, st2.1, st2.2⟩

/-- State-assignment loop of build_order_progress (main.py 1309-1322),
including the in_transit override applied inside the loop. -/
def assignStatesAux (fi : Nat) : Nat → List PreStage → List Stage
  | _, [] => []
  | idx, s :: rest => assignOne fi idx s :: assignStatesAux fi (idx + 1) rest

def assignStates (stages : List PreStage) : List Stage :=
  assignStatesAux (firstIncompleteIdx stages) 0 stages

def registrationCompletionCodes : List String :=
  ["COMPLETED", "COMPLETE", "APPROVED", "SUBMITTED"]

/-- The seven pre-stages of build_order_progress (main.py 1146-1303),
computed from the extracted fields; today is the utcnow date of line 1092. -/
def preStages (today : Nat × Nat × Nat) (f : ProgressFields) : List PreStage :=
  let order_status := String.mk (upperChars (pyStr (pyOr f.order_status_raw (.str ""))).data)
  let odometer_numeric := parse_numeric f.odometer_raw
  let vin_value := scrub_text f.vin_raw
  let eta_display := bopFormatDateOnly f.eta_raw
  let eta_datetime := parse_iso_datetime f.eta_raw
  let eta_date := eta_datetime.map dtDate
  let in_transit_completed := match eta_date with
    | some d => dateLe d today
    | Option.none => false
  let in_transit_has_eta := optStrTruthy eta_display
  let eta_labeled := match eta_display with
    | some d => if d ≠ "" then some ("ETA: " ++ d) else Option.none
    | Option.none => Option.none
  let eta_timestamp := if optStrTruthy eta_display then eta_labeled else Option.none
  let ready_window_primary := scrub_text f.appt_primary_raw
  let ready_datetime := parse_iso_datetime (optStrToPy ready_window_primary)
  let ready_window_fallback := scrub_text f.window_fallback_raw
  let ready_window_display := _shorten_delivery_window_display (optStrToPy ready_window_fallback)
  let ready_meta : Option String × PyVal :=
    if optStrTruthy ready_window_primary then
      (some "Appointment", optStrToPy ready_window_primary)
    else if optStrTruthy ready_window_fallback then
      (some "Window", .str (orOptStr ready_window_display ((ready_window_fallback).getD "")))
    else (Option.none, .none)
  let ready_timestamp : PyVal :=
    match ready_datetime with
    | some dt => .str (pyIsoformat dt)
    | Option.none => f.ready_fallback_raw
  let delivered_flag := containsChars order_status.data "DELIVERED".data
  let production_complete :=
    match odometer_numeric with
    | some q => qLtb ⟨1, 1000000⟩ (qAbs (qSub q (qOfInt 30)))
    | Option.none => false
  let ready_flag := ready_datetime.isSome
  let registration_status_normalized := normalize_code_token f.registration_status_raw
  let registration_status_label : PyVal :=
    pyOr (pyOr (_describe_registration_status f.registration_status_raw)
      (optStrToPy (scrub_text f.registration_status_raw))) (.str "Unknown")
  let reggie_license_plate := scrub_text f.reggie_raw
  let registration_complete :=
    match registration_status_normalized with
    | some t => registrationCompletionCodes.contains t
    | Option.none => false
  [{ key := "order_placed", label := "Order Placed",
     description := "Reservation submitted and RN assigned.",
     completed := f.order_placed_raw.truthy,
     timestamp := bopFormatTimestamp f.order_placed_raw,
     meta_label := Option.none, meta_value := .none, has_eta := Option.none },
   { key := "vin_assigned", label := "VIN Assigned",
     description := "Tesla matched a specific vehicle to your RN.",
     completed := optStrTruthy vin_value,
     timestamp := bopFormatTimestamp f.vin_assigned_raw,
     meta_label := some "VIN", meta_value := optStrToPy vin_value, has_eta := Option.none },
   { key := "production", label := "In Production",
     description := "Factory scheduling or build in progress.",
     completed := production_complete,
     timestamp := bopFormatTimestamp f.production_ts_raw,
     meta_label := some "Odometer",
     meta_value := .str (orOptStr f.odometer_display "Awaiting update"),
     has_eta := Option.none },
   { key := "in_transit", label := "In Transit",
     description := "Vehicle departed the factory toward your delivery hub.",
     completed := in_transit_completed, timestamp := eta_timestamp,
     meta_label := some "ETA", meta_value := optStrToPy eta_labeled,
     has_eta := some in_transit_has_eta },
   { key := "registration", label := "Registration",
     description := "Paperwork with your DMV or agency to secure plates.",
     completed := registration_complete,
     timestamp := bopFormatTimestamp f.registration_ts_raw,
     meta_label := some (if optStrTruthy reggie_license_plate then "Plate" else "Status"),
     meta_value := (match reggie_license_plate with
       | some r => .str r
       | Option.none => registration_status_label),
     has_eta := Option.none },
   { key := "ready", label := "Ready For Delivery",
     description := "Delivery center appointment or pickup window confirmed.",
     completed := ready_flag, timestamp := bopFormatTimestamp ready_timestamp,
     meta_label := ready_meta.1, meta_value := ready_meta.2, has_eta := Option.none },
   { key := "delivered", label := "Delivered",
     description := "Vehicle handed off and paperwork closed.",
     completed := delivered_flag,
     timestamp := bopFormatTimestamp f.delivered_ts_raw,
     meta_label := Option.none, meta_value := .none, has_eta := Option.none }]

/-- Pure tail of build_order_progress: state pass and aggregates
(main.py 1305-1334). -/
def computeProgress (today : Nat × Nat × Nat) (f : ProgressFields) : Progress :=
  let pre := preStages today f
  let stages := assignStates pre
  let fi := firstIncompleteIdx pre
  let completed_count := pre.countP (fun s => s.completed)
  let total := pre.length
  let percent : Int := if total ≠ 0 then pyRound ⟨(completed_count : Int) * 100, total⟩ else 0
  { stages := stages, completed := completed_count, total := total, percent := percent,
    active_index := if total ≠ 0 then min fi (total - 1) else 0 }

/-- Embedding of src/app/main.py build_order_progress; today stands for
datetime.utcnow().date(), passed explicitly. -/
def build_order_progress (today : Nat × Nat × Nat) (order_entry : PyVal) :
    Except String Progress := do
  let f ← extractProgressFields order_entry
  pure (computeProgress today f)

/-- Fully populated delivered order (concrete test envelope). -/
def envAllComplete : PyVal :=
  .dict [("order", .dict [
      ("orderPlacedDate", .str "2024-01-02T03:04:05Z"),
      ("vin", .str "5YJ3E1EA7KF000316"),
      ("vehicleOdometer", .int 12),
      ("orderStatus", .str "DELIVERED")]),
    ("details", .dict [("tasks", .dict [
      ("scheduling", .dict [("apptDateTimeAddressStr", .str "2024-05-28T10:00:00")]),
      ("registration", .dict [("status", .str "APPROVED")]),
      ("finalPayment", .dict [("data", .dict [("etaToDeliveryCenter", .str "2024-05-20")])])])])]

/-- Order with the first three stages complete and no ETA anywhere
(concrete test envelope). -/
def envNoEta : PyVal :=
  .dict [("order", .dict [
      ("orderPlacedDate", .str "2024-01-02"),
      ("vin", .str "5YJ3E1EA7KF000316"),
      ("vehicleOdometer", .int 12)]),
    ("details", .dict [("tasks", .dict [])])]

/-- Order with a parseable appointment but no VIN (concrete test envelope). -/
def envReadyNoVin : PyVal :=
  .dict [("order", .dict [("orderPlacedDate", .str "2024-01-02")]),
    ("details", .dict [("tasks", .dict [
      ("scheduling", .dict [("apptDateTimeAddressStr", .str "2024-05-28T10:00:00")])])])]

def today0 : Nat × Nat × Nat := (2024, 6, 1)

/-- The (month, day) pairs the shortening loop collects for an input
(empty when the early falsy/empty-text exits trigger). -/
def shortenPairs (value : PyVal) : List (String × Nat) :=
  if isNoneOrEmptyStr value then []
  else
    let text := normalizeWsText value
    if text.isEmpty then [] else windowPairs text

/-- Value stored under a key, Python absent modelled as None. -/
def valueAt (xs : List (String × PyVal)) (k : String) : PyVal :=
  (xs.lookup k).getD .none

def subVal (v : PyVal) (k : String) : PyVal :=
  match v with
  | .dict ys => valueAt ys k
  | _ => .none

/-- Sub-value with the .get default {} the unpacker uses. -/
def subValD (v : PyVal) (k : String) : PyVal :=
  match v with
  | .dict ys => (ys.lookup k).getD (.dict [])
  | _ => .dict []

def dictOrFalsy (v : PyVal) : Bool := isDictB v || !v.truthy

def orEmptyDict (v : PyVal) : PyVal := pyOr v (.dict [])

/-- Fallback fields record (never used on the success paths below). -/
def emptyProgressFields : ProgressFields :=
  ⟨.none, .none, Option.none, .none, .none, .none, .none, .none, .none, .none, .none, .none,
   .none, .none, .none, .none⟩

def fAllComplete : ProgressFields :=
  match extractProgressFields envAllComplete with
  | .ok f => f
  | .error _ => emptyProgressFields

def fReadyNoVin : ProgressFields :=
  match extractProgressFields envReadyNoVin with
  | .ok f => f
  | .error _ => emptyProgressFields

def fNoEta : ProgressFields :=
  match extractProgressFields envNoEta with
  | .ok f => f
  | .error _ => emptyProgressFields

/-- Fallback stage record (never reached on the success paths below). -/
def emptyStage : Stage :=
  ⟨"", "", "", false, Option.none, Option.none, .none, Option.none, "", ""⟩

def stNoEta3 : Stage :=
  match (computeProgress today0 fNoEta).stages.get? 3 with
  | some s => s
  | Option.none => emptyStage

def stagesFirstIncomplete : List Stage → Nat
  | [] => 0
  | s :: rest => if s.completed then 1 + stagesFirstIncomplete rest else 0

/-! Theorems for the frozen claims. -/

/-- C9: for every (value, unit) input pair, the mileage formatter in
utils (format_vehicle_mileage) and the duplicated copy in main
(_format_vehicle_mileage) return equal results. -/
theorem mileage_formatter_copies_agree (value unit : PyVal) :
    format_vehicle_mileage value unit = _format_vehicle_mileage value unit := rfl

/-- C8: for every truthy input whose Z-normalized string representation
fails to parse as an ISO-8601-like timestamp, format_timestamp returns
the original str(value) unchanged (and, as a total function, it cannot
raise). -/
theorem format_timestamp_returns_input_on_parse_failure (value : PyVal)
    (ht : value.truthy = true)
    (hp : fromisoformatChars (zNormalize (pyStr value).data) = Option.none) :
    format_timestamp value = some (pyStr value) := by
  unfold format_timestamp
  rw [ht]
  simp [hp]

/-- Witness for C8 at the spec's concrete input "not-a-date". -/
theorem format_timestamp_returns_input_on_parse_failure_witness :
    format_timestamp (.str "not-a-date") = some "not-a-date" :=
  format_timestamp_returns_input_on_parse_failure (.str "not-a-date") (by decide) (by decide)

theorem splitRunsAux_no_sep (p : Char → Bool) (l acc : List Char)
    (h : ∀ c ∈ l, p c = false) :
    splitRunsAux p l (some acc) = [acc.reverse ++ l] := by
  induction l generalizing acc with
  | nil => simp [splitRunsAux]
  | cons c cs ih =>
    have hc : p c = false := h c (by simp)
    have ih2 := ih (c :: acc) (fun d hd => h d (by simp [hd]))
    simp [splitRunsAux, hc, ih2]

theorem stringMk_data (s : String) : String.mk s.data = s := rfl

/-- C10: split_option_codes splits only on runs of the literal
characters comma, semicolon, pipe, backslash and the letter s (the
class of OPTION_CODE_SPLITTER); a string free of those characters,
whitespace included, yields at most the single normalized candidate,
so "MDL3 BT37" stays one blob there while describe_market_options
splits the same blob on whitespace into two separate codes. -/
theorem split_option_codes_separator_class :
    (∀ s : String, (∀ c ∈ s.data, isOptionSplitChar c = false) →
        split_option_codes (.str s) = (normalize_option_code (.str s)).toList) ∧
    split_option_codes (.str "MDL3 BT37") = ["MDL3 BT37"] ∧
    describe_market_options (.str "MDL3 BT37") =
      [("Battery Options", "Long Range battery pack (BT37)"),
       ("Vehicle Options", "Model 3 Platform (MDL3)")] := by
  refine ⟨fun s h => ?_, by decide, by decide⟩
  by_cases hs : s = ""
  · subst hs; decide
  · have hne : (PyVal.str s).truthy = true := by
      simp [PyVal.truthy, hs]
    unfold split_option_codes
    rw [hne]
    simp only [reSplitRuns, splitRunsAux_no_sep _ _ _ h, List.reverse_nil, List.nil_append,
      List.map, List.filterMap]
    rw [stringMk_data]
    cases hn : normalize_option_code (.str s) <;> simp [hn]

/-- Witness for C10: the universal part applied to the whitespace blob
"AB CD", whose only candidate is the whole upper-cased text. -/
theorem split_option_codes_separator_class_witness :
    split_option_codes (.str "AB CD") = ["AB CD"] := by
  have h := split_option_codes_separator_class.1 "AB CD" (by decide)
  simpa using h

/-- C7 (amended): delivery-window shortening returns absent whenever
fewer than two day/month pairs are collected — also when exactly one is
found — and with two collected pairs it renders "DD Mon - DD Mon", or
the single endpoint only when both render identically. -/
theorem shorten_delivery_window_display_cases (value : PyVal) :
    ((shortenPairs value).length < 2 → shorten_delivery_window_display value = Option.none) ∧
    (∀ m1 d1 m2 d2 rest, shortenPairs value = (m1, d1) :: (m2, d2) :: rest →
      shorten_delivery_window_display value =
        some (if formatDayMonth m1 d1 = formatDayMonth m2 d2 then formatDayMonth m1 d1
          else formatDayMonth m1 d1 ++ " - " ++ formatDayMonth m2 d2)) := by
  unfold shorten_delivery_window_display shortenPairs
  by_cases h1 : isNoneOrEmptyStr value = true
  · simp [h1]
  · simp only [h1, Bool.false_eq_true, if_false]
    by_cases h2 : (normalizeWsText value).isEmpty = true
    · simp [h2]
    · simp only [h2, Bool.false_eq_true, if_false]
      constructor
      · intro hlen
        match hw : windowPairs (normalizeWsText value), hlen with
        | [], _ => simp
        | [(m, d)], _ => simp
      · intro m1 d1 m2 d2 rest hw
        rw [hw]
        by_cases he : formatDayMonth m1 d1 = formatDayMonth m2 d2 <;> simp [he]

/-- Counterexample for C7: the text "5 March" yields exactly one
day/month pair, and the shortener returns absent rather than the
single endpoint "05 Mar" the claim requires. -/
theorem shorten_delivery_window_single_pair_absent :
    shortenPairs (.str "5 March") = [("Mar", 5)] ∧
    shorten_delivery_window_display (.str "5 March") = Option.none := by
  constructor <;> decide

/-- Witness for C7 (amended) on a two-pair window text. -/
theorem shorten_delivery_window_display_cases_witness :
    shorten_delivery_window_display (.str "12 March - 15 March") = some "12 Mar - 15 Mar" := by
  have h := (shorten_delivery_window_display_cases (.str "12 March - 15 March")).2
      "Mar" 12 "Mar" 15 [] (by decide)
  simpa using h

theorem orEmptyDict_isDict (v : PyVal) (h : dictOrFalsy v = true) :
    isDictB (orEmptyDict v) = true := by
  cases hv : v.truthy
  · simp [pyOr, orEmptyDict, hv, isDictB]
  · have hd : isDictB v = true := by
      unfold dictOrFalsy at h
      rw [hv] at h
      simpa using h
    cases v <;> simp_all [orEmptyDict, pyOr, isDictB]

theorem getD_dict_or (xs : List (String × PyVal)) (k : String) :
    pyOr ((xs.lookup k).getD (.dict [])) (.dict []) = orEmptyDict (valueAt xs k) := by
  cases h : xs.lookup k <;> simp [valueAt, orEmptyDict, h, pyOr, PyVal.truthy]

theorem pyDictGet_dict (xs : List (String × PyVal)) (k : String) (d : PyVal) :
    pyDictGet (.dict xs) k d = .ok ((xs.lookup k).getD d) := rfl

theorem exceptBind_ok {α β ε : Type} (a : α) (f : α → Except ε β) :
    (Except.ok a >>= f) = f a := rfl

/-- Counterexample for C5: a truthy non-mapping under "details" makes
unpack_order_data raise AttributeError on details.get("tasks"). -/
theorem unpack_order_data_raises_on_string_details :
    unpack_order_data (.dict [("details", .str "oops")]) = .error "AttributeError" := rfl

/-- C5 (amended): unpack_order_data never raises provided the "details"
value and the nested "tasks" value are mappings whenever truthy - with no
condition on any other key, so truthy non-mapping task sub-values such as
scheduling = "oops" pass through without raising - and under those two
provisos the details and tasks keys resolve to mappings.  All eight keys
resolve to at least an empty mapping under the further provisos that the
order value and the four task sub-values are mappings whenever truthy and
that the final-payment "data" value is a mapping whenever the "data" key
is present (that .get has no `or \x7b\x7d` guard, so present-but-falsy
data is not defaulted).  The "data" sub-object does default to empty when
finalPayment is a truthy non-mapping (the isinstance guard).  A truthy
non-mapping "details" value, by contrast, raises (see the
counterexample). -/
theorem unpack_order_data_wellshaped :
    (∀ xs : List (String × PyVal),
      dictOrFalsy (valueAt xs "details") = true →
      dictOrFalsy (subVal (orEmptyDict (valueAt xs "details")) "tasks") = true →
      ∃ ctx, unpack_order_data (.dict xs) = .ok ctx ∧
        isDictB ctx.details = true ∧ isDictB ctx.tasks = true) ∧
    (∀ xs : List (String × PyVal),
      dictOrFalsy (valueAt xs "order") = true →
      dictOrFalsy (valueAt xs "details") = true →
      dictOrFalsy (subVal (orEmptyDict (valueAt xs "details")) "tasks") = true →
      (∀ tv, tv = orEmptyDict (subVal (orEmptyDict (valueAt xs "details")) "tasks") →
        dictOrFalsy (subVal tv "scheduling") = true ∧
        dictOrFalsy (subVal tv "registration") = true ∧
        dictOrFalsy (subVal tv "deliveryDetails") = true ∧
        dictOrFalsy (subVal tv "finalPayment") = true ∧
        isDictB (subValD (orEmptyDict (subVal tv "finalPayment")) "data") = true) →
      ∃ ctx, unpack_order_data (.dict xs) = .ok ctx ∧
        isDictB ctx.order = true ∧ isDictB ctx.details = true ∧ isDictB ctx.tasks = true ∧
        isDictB ctx.scheduling = true ∧ isDictB ctx.registration = true ∧
        isDictB ctx.final_payment = true ∧ isDictB ctx.final_payment_data = true ∧
        isDictB ctx.delivery_details = true) ∧
    (∀ xs : List (String × PyVal),
      dictOrFalsy (valueAt xs "details") = true →
      dictOrFalsy (subVal (orEmptyDict (valueAt xs "details")) "tasks") = true →
      (subVal (orEmptyDict (subVal (orEmptyDict (valueAt xs "details")) "tasks"))
          "finalPayment").truthy = true →
      isDictB (subVal (orEmptyDict (subVal (orEmptyDict (valueAt xs "details")) "tasks"))
          "finalPayment") = false →
      ∃ ctx, unpack_order_data (.dict xs) = .ok ctx ∧ ctx.final_payment_data = .dict []) := by
  refine ⟨?_, ?_, ?_⟩
  · intro xs hD hT
    obtain ⟨dys, hdys⟩ : ∃ ys, orEmptyDict (valueAt xs "details") = .dict ys := by
      have h1 := orEmptyDict_isDict _ hD
      cases h : orEmptyDict (valueAt xs "details") <;> simp_all [isDictB]
    have hsubt : subVal (orEmptyDict (valueAt xs "details")) "tasks" = valueAt dys "tasks" := by
      rw [hdys]; rfl
    obtain ⟨tys, htys⟩ : ∃ ys, orEmptyDict (valueAt dys "tasks") = .dict ys := by
      rw [hsubt] at hT
      have h1 := orEmptyDict_isDict _ hT
      cases h : orEmptyDict (valueAt dys "tasks") <;> simp_all [isDictB]
    unfold unpack_order_data
    simp only [pyDictGet_dict, exceptBind_ok, getD_dict_or, hdys, htys, hsubt]
    cases hfp : orEmptyDict (valueAt tys "finalPayment") with
    | dict fys => exact ⟨_, rfl, rfl, rfl⟩
    | none => exact ⟨_, rfl, rfl, rfl⟩
    | bool b => exact ⟨_, rfl, rfl, rfl⟩
    | int n => exact ⟨_, rfl, rfl, rfl⟩
    | str s => exact ⟨_, rfl, rfl, rfl⟩
    | list l => exact ⟨_, rfl, rfl, rfl⟩
  · intro xs hO hD hT hSub
    obtain ⟨dys, hdys⟩ : ∃ ys, orEmptyDict (valueAt xs "details") = .dict ys := by
      have h1 := orEmptyDict_isDict _ hD
      cases h : orEmptyDict (valueAt xs "details") <;> simp_all [isDictB]
    have hsubt : subVal (orEmptyDict (valueAt xs "details")) "tasks" = valueAt dys "tasks" := by
      rw [hdys]; rfl
    obtain ⟨tys, htys⟩ : ∃ ys, orEmptyDict (valueAt dys "tasks") = .dict ys := by
      rw [hsubt] at hT
      have h1 := orEmptyDict_isDict _ hT
      cases h : orEmptyDict (valueAt dys "tasks") <;> simp_all [isDictB]
    obtain ⟨hS, hR, hDD, hFP, hData⟩ := hSub _ rfl
    rw [hsubt, htys] at hS hR hDD hFP hData
    have hsubf : subVal (PyVal.dict tys) "finalPayment" = valueAt tys "finalPayment" := rfl
    rw [hsubf] at hFP hData
    obtain ⟨fys, hfys⟩ : ∃ ys, orEmptyDict (valueAt tys "finalPayment") = .dict ys := by
      have h1 := orEmptyDict_isDict _ hFP
      cases h : orEmptyDict (valueAt tys "finalPayment") <;> simp_all [isDictB]
    unfold unpack_order_data
    simp only [pyDictGet_dict, exceptBind_ok, getD_dict_or, hdys, htys, hfys, hsubt]
    rw [hfys] at hData
    exact ⟨_, rfl, orEmptyDict_isDict _ hO, rfl, rfl, orEmptyDict_isDict _ hS,
      orEmptyDict_isDict _ hR, rfl, by simpa [subValD] using hData, orEmptyDict_isDict _ hDD⟩
  · intro xs hD hT hfpT hfpND
    obtain ⟨dys, hdys⟩ : ∃ ys, orEmptyDict (valueAt xs "details") = .dict ys := by
      have h1 := orEmptyDict_isDict _ hD
      cases h : orEmptyDict (valueAt xs "details") <;> simp_all [isDictB]
    have hsubt : subVal (orEmptyDict (valueAt xs "details")) "tasks" = valueAt dys "tasks" := by
      rw [hdys]; rfl
    obtain ⟨tys, htys⟩ : ∃ ys, orEmptyDict (valueAt dys "tasks") = .dict ys := by
      rw [hsubt] at hT
      have h1 := orEmptyDict_isDict _ hT
      cases h : orEmptyDict (valueAt dys "tasks") <;> simp_all [isDictB]
    rw [hsubt, htys] at hfpT hfpND
    have hsubf : subVal (PyVal.dict tys) "finalPayment" = valueAt tys "finalPayment" := rfl
    rw [hsubf] at hfpT hfpND
    have hor : pyOr ((tys.lookup "finalPayment").getD (.dict [])) (.dict []) =
        valueAt tys "finalPayment" := by
      rw [getD_dict_or]
      unfold orEmptyDict pyOr
      rw [hfpT]
      simp
    unfold unpack_order_data
    simp only [pyDictGet_dict, exceptBind_ok, getD_dict_or, hdys, htys, hsubt, hor]
    cases hv : valueAt tys "finalPayment" with
    | dict zs =>
        rw [hv] at hfpND
        simp [isDictB] at hfpND
    | none => exact ⟨_, rfl, rfl⟩
    | bool b => exact ⟨_, rfl, rfl⟩
    | int n => exact ⟨_, rfl, rfl⟩
    | str s => exact ⟨_, rfl, rfl⟩
    | list l => exact ⟨_, rfl, rfl⟩

theorem exceptBind_err {α β ε : Type} (e : ε) (f : α → Except ε β) :
    ((Except.error e : Except ε α) >>= f) = .error e := rfl

/-- An accepted build_order_progress run is the pure computation over
successfully extracted fields. -/
theorem build_ok_elim {today : Nat × Nat × Nat} {env : PyVal} {p : Progress}
    (h : build_order_progress today env = .ok p) :
    ∃ f, extractProgressFields env = .ok f ∧ p = computeProgress today f := by
  unfold build_order_progress at h
  cases hf : extractProgressFields env with
  | error e =>
    rw [hf, exceptBind_err] at h
    exact absurd h (by simp)
  | ok f =>
    rw [hf, exceptBind_ok] at h
    refine ⟨f, rfl, ?_⟩
    have h2 : Except.ok (computeProgress today f) = Except.ok p := h
    injection h2 with h3
    exact h3.symm

theorem assignOne_key (fi idx : Nat) (s : PreStage) : (assignOne fi idx s).key = s.key := rfl

theorem assignOne_completed (fi idx : Nat) (s : PreStage) :
    (assignOne fi idx s).completed = s.completed := rfl

theorem assignOne_has_eta (fi idx : Nat) (s : PreStage) :
    (assignOne fi idx s).has_eta = s.has_eta := rfl

theorem assignStatesAux_get? (fi : Nat) (ps : List PreStage) :
    ∀ idx j, (assignStatesAux fi idx ps).get? j = (ps.get? j).map (assignOne fi (idx + j)) := by
  induction ps with
  | nil => intro idx j; simp [assignStatesAux]
  | cons s rest ih =>
    intro idx j
    cases j with
    | zero => simp [assignStatesAux]
    | succ j2 =>
      simp only [assignStatesAux, List.get?_cons_succ]
      rw [ih (idx + 1) j2]
      have he : idx + 1 + j2 = idx + (j2 + 1) := by omega
      rw [he]

theorem assignStates_get? (ps : List PreStage) (j : Nat) :
    (assignStates ps).get? j = (ps.get? j).map (assignOne (firstIncompleteIdx ps) j) := by
  unfold assignStates
  rw [assignStatesAux_get?]
  simp

theorem computeProgress_stages (t : Nat × Nat × Nat) (f : ProgressFields) :
    (computeProgress t f).stages = assignStates (preStages t f) := rfl

theorem preStages_get5_completed (t : Nat × Nat × Nat) (f : ProgressFields) :
    ((preStages t f).get? 5).map (fun s => s.completed) =
      some (parse_iso_datetime (optStrToPy (scrub_text f.appt_primary_raw))).isSome := rfl

theorem preStages_get3_fields (t : Nat × Nat × Nat) (f : ProgressFields) :
    ((preStages t f).get? 3).map (fun s => (s.key, s.completed, s.has_eta)) =
      some ("in_transit",
        (match (parse_iso_datetime f.eta_raw).map dtDate with
         | some d => dateLe d t
         | Option.none => false),
        some (optStrTruthy (bopFormatDateOnly f.eta_raw))) := rfl

theorem dropWhile_dropWhile (p : Char → Bool) (l : List Char) :
    List.dropWhile p (List.dropWhile p l) = List.dropWhile p l := by
  induction l with
  | nil => rfl
  | cons c cs ih =>
    by_cases h : p c <;> simp [List.dropWhile_cons, h, ih]

theorem head_dropWhile (p : Char → Bool) (l : List Char) :
    ∀ c, (l.dropWhile p).head? = some c → p c = false := by
  induction l with
  | nil => intro c h; simp at h
  | cons a as ih =>
    intro c h
    by_cases ha : p a
    · rw [List.dropWhile_cons, if_pos ha] at h
      exact ih c h
    · rw [List.dropWhile_cons, if_neg ha] at h
      simp at h
      rw [← h]
      simpa using ha

theorem dropWhile_of_head_fails (p : Char → Bool) (l : List Char)
    (h : ∀ c, l.head? = some c → p c = false) : l.dropWhile p = l := by
  cases l with
  | nil => rfl
  | cons a as => simp [List.dropWhile_cons, h a rfl]

theorem trimRight_isPrefix (l : List Char) : trimRightChars l <+: l := by
  obtain ⟨t, ht⟩ := List.dropWhile_suffix (l := l.reverse) (p := isWs)
  refine ⟨t.reverse, ?_⟩
  rw [trimRightChars, ← List.reverse_append, ht, List.reverse_reverse]

theorem stripChars_idem (l : List Char) : stripChars (stripChars l) = stripChars l := by
  have hL : trimLeftChars (stripChars l) = stripChars l := by
    apply dropWhile_of_head_fails
    intro c hc
    obtain ⟨t, ht⟩ := trimRight_isPrefix (trimLeftChars l)
    have hsc : stripChars l = trimRightChars (trimLeftChars l) := rfl
    rw [hsc] at hc
    cases he : trimRightChars (trimLeftChars l) with
    | nil => rw [he] at hc; simp at hc
    | cons a as =>
      rw [he] at hc ht
      simp only [List.head?_cons, Option.some.injEq] at hc
      subst hc
      apply head_dropWhile isWs l
      have hx : trimLeftChars l = a :: (as ++ t) := by rw [← ht]; simp
      rw [show trimLeftChars l = List.dropWhile isWs l from rfl] at hx
      rw [hx]
      rfl
  show trimRightChars (trimLeftChars (stripChars l)) = stripChars l
  rw [hL]
  show trimRightChars (trimRightChars (trimLeftChars l)) = trimRightChars (trimLeftChars l)
  unfold trimRightChars
  rw [List.reverse_reverse, dropWhile_dropWhile]

/-- Scrubbing before the ISO parse does not change whether (or what) it
parses: parse_iso_datetime strips the text itself. -/
theorem parse_iso_datetime_scrub (v : PyVal) :
    parse_iso_datetime (optStrToPy (scrub_text v)) = parse_iso_datetime v := by
  by_cases h : isNoneOrEmptyStr v = true
  · have h1 : scrub_text v = Option.none := by
      unfold scrub_text
      rw [if_pos h]
    rw [h1]
    show parse_iso_datetime .none = parse_iso_datetime v
    unfold parse_iso_datetime
    rw [if_pos h]
    rfl
  · by_cases he : (stripChars (pyStr v).data).isEmpty = true
    · have hempty : stripChars (pyStr v).data = [] := by
        simpa [List.isEmpty_iff] using he
      have h1 : scrub_text v = Option.none := by
        simp [scrub_text, h, hempty]
      rw [h1]
      show parse_iso_datetime .none = parse_iso_datetime v
      unfold parse_iso_datetime
      rw [if_neg h, hempty]
      rfl
    · have hnonempty : stripChars (pyStr v).data ≠ [] := by
        simpa [List.isEmpty_iff] using he
      have h1 : scrub_text v = some (String.mk (stripChars (pyStr v).data)) := by
        simp [scrub_text, h, he]
      rw [h1]
      unfold parse_iso_datetime
      have h2 : isNoneOrEmptyStr (optStrToPy (some (String.mk (stripChars (pyStr v).data)))) =
          false := by
        simp only [optStrToPy, isNoneOrEmptyStr]
        cases hc : stripChars (pyStr v).data with
        | nil => exact absurd hc hnonempty
        | cons a as => rfl
      rw [h2]
      simp only [Bool.false_eq_true, if_false, if_neg h]
      rw [show pyStr (optStrToPy (some (String.mk (stripChars (pyStr v).data)))) =
          String.mk (stripChars (pyStr v).data) from rfl]
      rw [show (String.mk (stripChars (pyStr v).data)).data = stripChars (pyStr v).data from rfl]
      rw [stripChars_idem]

/-- Counterexample for C1: an envelope with a parseable appointment
datetime but an unassigned VIN still gets a completed ready stage — the
prerequisite chain the claim demands is absent from the code. -/
theorem ready_completed_despite_incomplete_prior :
    (build_order_progress today0 envReadyNoVin).map
      (fun p => p.stages.map (fun s => (s.key, s.completed))) =
    .ok [("order_placed", true), ("vin_assigned", false), ("production", false),
         ("in_transit", false), ("registration", false), ("ready", true),
         ("delivered", false)] := by decide

/-- C1 (amended): the ready stage is completed exactly when the raw
apptDateTimeAddressStr scheduling value parses as a real ISO date-time,
with no prerequisite on the five prior stages. -/
theorem ready_stage_completion (today : Nat × Nat × Nat) (env : PyVal) (p : Progress)
    (f : ProgressFields)
    (hb : build_order_progress today env = .ok p)
    (hf : extractProgressFields env = .ok f) :
    (p.stages.get? 5).map (fun s => s.completed) =
      some (parse_iso_datetime f.appt_primary_raw).isSome := by
  obtain ⟨f2, hf2, hp⟩ := build_ok_elim hb
  rw [hf] at hf2
  injection hf2 with hff
  subst hff
  subst hp
  rw [computeProgress_stages, assignStates_get?]
  have h5 := preStages_get5_completed today f
  cases hg : (preStages today f).get? 5 with
  | none => rw [hg] at h5; simp at h5
  | some s =>
    rw [hg] at h5
    have h5b : s.completed = (parse_iso_datetime (optStrToPy (scrub_text f.appt_primary_raw))).isSome := by
      have : some s.completed =
          some (parse_iso_datetime (optStrToPy (scrub_text f.appt_primary_raw))).isSome := h5
      injection this
    show some ((assignOne (firstIncompleteIdx (preStages today f)) 5 s).completed) = _
    rw [assignOne_completed, h5b, parse_iso_datetime_scrub]

/-- Witness for C1 on the fully populated delivered envelope. -/
theorem ready_stage_completion_witness :
    ((computeProgress today0 fAllComplete).stages.get? 5).map (fun s => s.completed) =
      some true := by
  have hb : build_order_progress today0 envAllComplete =
      .ok (computeProgress today0 fAllComplete) := by rfl
  have hf : extractProgressFields envAllComplete = .ok fAllComplete := by rfl
  have h := ready_stage_completion today0 envAllComplete _ fAllComplete hb hf
  rw [h]
  decide

theorem str_ne_empty_iff (s : String) : s ≠ "" ↔ s.data ≠ [] :=
  not_congr (String.ext_iff.trans Iff.rfl)

theorem natToRevDigitsFuel_ne_nil (f n : Nat) (hn : n ≠ 0) (hf : f ≠ 0) :
    natToRevDigitsFuel f n ≠ [] := by
  cases f with
  | zero => exact absurd rfl hf
  | succ g => simp [natToRevDigitsFuel, hn]

theorem natToChars_ne_nil (n : Nat) : natToChars n ≠ [] := by
  unfold natToChars
  by_cases h : n = 0
  · simp [h]
  · simp only [h, if_false]
    intro hc
    rw [List.reverse_eq_nil_iff, List.map_eq_nil_iff] at hc
    exact natToRevDigitsFuel_ne_nil n n h h hc

theorem pad2_ne_nil (n : Nat) : pad2 n ≠ [] := by
  unfold pad2
  split
  · simp
  · exact natToChars_ne_nil n

theorem strftime_data_ne_nil (dt : PyDateTime) : (strftimeDMYHM dt).data ≠ [] := by
  unfold strftimeDMYHM
  simp only [String.data_append]
  intro h
  simp only [List.append_eq_nil] at h
  exact pad2_ne_nil dt.day (by tauto)

theorem pyStr_ne_empty_of_truthy (v : PyVal) (h : v.truthy = true) : pyStr v ≠ "" := by
  cases v with
  | none => simp [PyVal.truthy] at h
  | bool b =>
    cases b
    · simp [PyVal.truthy] at h
    · decide
  | int n =>
    rw [str_ne_empty_iff]
    show intToChars n ≠ []
    unfold intToChars
    intro hc
    rw [List.append_eq_nil] at hc
    exact natToChars_ne_nil n.natAbs hc.2
  | str s =>
    simp only [PyVal.truthy] at h
    simpa using h
  | list xs =>
    rw [str_ne_empty_iff]
    show ("[" ++ ", ".intercalate (pyReprList xs) ++ "]").data ≠ []
    simp [String.data_append]
  | dict xs =>
    rw [str_ne_empty_iff]
    show ("\x7b" ++ ", ".intercalate (pyReprDict xs) ++ "\x7d").data ≠ []
    simp [String.data_append]

theorem _format_timestamp_some_ne (v : PyVal) (h : v.truthy = true) :
    ∃ s, _format_timestamp v = some s ∧ s ≠ "" := by
  unfold _format_timestamp
  rw [h]
  simp only [Bool.not_true, Bool.false_eq_true, if_false]
  cases hfi : fromisoformatChars (zNormalize (pyStr v).data) with
  | some dt =>
    exact ⟨_, rfl, by rw [str_ne_empty_iff]; exact strftime_data_ne_nil dt⟩
  | none => exact ⟨_, rfl, pyStr_ne_empty_of_truthy v h⟩

theorem splitWsAux_mem_ne_nil (l : List Char) :
    ∀ acc, (∀ s, acc = some s → s ≠ []) → ∀ t ∈ splitWsAux l acc, t ≠ [] := by
  induction l with
  | nil =>
    intro acc hacc t ht
    cases acc with
    | none => simp [splitWsAux] at ht
    | some a =>
      simp only [splitWsAux, List.mem_singleton] at ht
      subst ht
      intro hc
      exact hacc a rfl (by simpa using hc)
  | cons c cs ih =>
    intro acc hacc t ht
    cases acc with
    | none =>
      simp only [splitWsAux] at ht
      by_cases hw : isWs c
      · rw [if_pos hw] at ht
        exact ih Option.none (by intro s hs; cases hs) t ht
      · rw [if_neg hw] at ht
        exact ih (some [c]) (by intro s hs; injection hs with h2; rw [← h2]; simp) t ht
    | some a =>
      simp only [splitWsAux] at ht
      by_cases hw : isWs c
      · rw [if_pos hw] at ht
        rcases List.mem_cons.mp ht with ht2 | ht2
        · subst ht2
          intro hc
          exact hacc a rfl (by simpa using hc)
        · exact ih Option.none (by intro s hs; cases hs) t ht2
      · rw [if_neg hw] at ht
        exact ih (some (c :: a)) (by intro s hs; injection hs with h2; rw [← h2]; simp) t ht

theorem splitWs_mem_ne_nil (l : List Char) : ∀ t ∈ splitWs l, t ≠ [] :=
  splitWsAux_mem_ne_nil l Option.none (by intro s hs; cases hs)

theorem joinWithChar_ne_nil (sep : Char) (t : List Char) (ts : List (List Char))
    (h : t ≠ []) : joinWithChar sep (t :: ts) ≠ [] := by
  cases ts with
  | nil => simpa [joinWithChar] using h
  | cons u us => simp [joinWithChar, h]

theorem _format_date_only_some_ne (v : PyVal) (h : v.truthy = true) :
    ∃ s, _format_date_only v = some s ∧ s ≠ "" := by
  obtain ⟨s, hs, hne⟩ := _format_timestamp_some_ne v h
  unfold _format_date_only
  rw [hs]
  simp only [hne, if_false]
  by_cases hlen : (splitWs s.data).length ≥ 3
  · rw [if_pos hlen]
    refine ⟨_, rfl, ?_⟩
    rw [str_ne_empty_iff]
    show joinWithChar ' ' ((splitWs s.data).take 3) ≠ []
    cases hsp : splitWs s.data with
    | nil => rw [hsp] at hlen; simp at hlen
    | cons t ts =>
      have htne : t ≠ [] := splitWs_mem_ne_nil s.data t (by rw [hsp]; simp)
      cases ts with
      | nil => rw [hsp] at hlen; simp at hlen
      | cons u us =>
        cases us with
        | nil => rw [hsp] at hlen; simp at hlen
        | cons w ws => exact joinWithChar_ne_nil ' ' t _ htne
  · rw [if_neg hlen]
    exact ⟨s, rfl, hne⟩

theorem natToRevDigitsFuel_lt (f : Nat) : ∀ n, ∀ d ∈ natToRevDigitsFuel f n, d < 10 := by
  induction f with
  | zero => intro n d hd; simp [natToRevDigitsFuel] at hd
  | succ g ih =>
    intro n d hd
    unfold natToRevDigitsFuel at hd
    by_cases hn : n = 0
    · simp [hn] at hd
    · rw [if_neg hn] at hd
      rcases List.mem_cons.mp hd with h1 | h1
      · subst h1; exact Nat.mod_lt n (by omega)
      · exact ih (n / 10) d h1

theorem digitChar_props (d : Nat) (h : d < 10) :
    isDigitCh (digitChar d) = true ∧ isWs (digitChar d) = false ∧ digitChar d ≠ 'Z' := by
  interval_cases d <;> exact ⟨by decide, by decide, by decide⟩

theorem natToChars_all_digit (n : Nat) : ∀ c ∈ natToChars n, isDigitCh c = true := by
  intro c hc
  unfold natToChars at hc
  by_cases h : n = 0
  · rw [if_pos h] at hc
    simp at hc
    subst hc
    decide
  · rw [if_neg h] at hc
    rw [List.mem_reverse, List.mem_map] at hc
    obtain ⟨d, hd, hdc⟩ := hc
    subst hdc
    exact (digitChar_props d (natToRevDigitsFuel_lt n n d hd)).1

theorem isDigitCh_props (c : Char) (h : isDigitCh c = true) :
    isWs c = false ∧ c ≠ 'Z' ∧ c ≠ '-' := by
  refine ⟨?_, ?_, ?_⟩
  · cases hw : isWs c
    · rfl
    · exfalso
      simp only [isWs, Bool.or_eq_true, decide_eq_true_eq] at hw
      simp only [isDigitCh, Bool.and_eq_true, decide_eq_true_eq] at h
      rcases hw with ((((h1 | h1) | h1) | h1) | h1) | h1 <;> subst h1 <;>
        exact absurd h (by decide)
  · intro hz; subst hz; simp [isDigitCh] at h
  · intro hz; subst hz; simp [isDigitCh] at h

theorem stripChars_eq_self_of_ends (l : List Char)
    (hh : ∀ c, l.head? = some c → isWs c = false)
    (hl : ∀ c, l.getLast? = some c → isWs c = false) : stripChars l = l := by
  unfold stripChars
  have h1 : trimLeftChars l = l := dropWhile_of_head_fails isWs l hh
  rw [h1]
  unfold trimRightChars
  have h2 : l.reverse.dropWhile isWs = l.reverse := by
    apply dropWhile_of_head_fails
    intro c hc
    rw [List.head?_reverse] at hc
    exact hl c hc
  rw [h2, List.reverse_reverse]

theorem zNormalize_of_getLast_ne (l : List Char)
    (h : ∀ c, l.getLast? = some c → c ≠ 'Z') : zNormalize l = l := by
  unfold zNormalize
  cases hg : l.getLast? with
  | none => simp
  | some c =>
    have := h c hg
    simp [this]

theorem parseDigitsN_none_of_head (k : Nat) (c : Char) (r : List Char)
    (h : isDigitCh c = false) : parseDigitsN (k + 1) (c :: r) = Option.none := by
  simp [parseDigitsN, h]

theorem parseDigitsN_drop (k : Nat) : ∀ l v r, parseDigitsN k l = some (v, r) → r = l.drop k := by
  induction k with
  | zero =>
    intro l v r h
    simp [parseDigitsN] at h
    rw [← h.2]
    simp
  | succ j ih =>
    intro l v r h
    cases l with
    | nil => simp [parseDigitsN] at h
    | cons c cs =>
      unfold parseDigitsN at h
      by_cases hd : isDigitCh c
      · rw [if_pos hd] at h
        cases hp : parseDigitsN j cs with
        | none => rw [hp] at h; simp at h
        | some vr =>
          rw [hp] at h
          simp only [Option.some.injEq] at h
          have h2 : r = vr.2 := by
            cases vr
            simp at h
            simp [← h.2]
          rw [h2, List.drop_succ_cons]
          exact ih cs vr.1 vr.2 (by rw [hp])
      · rw [if_neg hd] at h
        simp at h

theorem fromiso_nondigit_head (c : Char) (r : List Char) (h : isDigitCh c = false) :
    fromisoformatChars (c :: r) = Option.none := by
  unfold fromisoformatChars
  rw [show (4 : Nat) = 3 + 1 from rfl, parseDigitsN_none_of_head 3 c r h]

theorem fromiso_all_digits (ds : List Char) (h : ∀ c ∈ ds, isDigitCh c = true) :
    fromisoformatChars ds = Option.none := by
  unfold fromisoformatChars
  cases h4 : parseDigitsN 4 ds with
  | none => rfl
  | some vr =>
    obtain ⟨y, r⟩ := vr
    have hr : r = ds.drop 4 := parseDigitsN_drop 4 ds y r h4
    cases hc : r with
    | nil => rfl
    | cons c rc =>
      have hcd : isDigitCh c = true := by
        apply h
        have : c ∈ ds.drop 4 := by rw [← hr, hc]; simp
        exact List.mem_of_mem_drop this
      have hcne : c ≠ '-' := (isDigitCh_props c hcd).2.2
      split
      · next y2 r1 heq =>
        injection heq with heq2
        injection heq2 with hy heq3
        injection heq3 with heq4
        exact absurd heq4 hcne
      · rfl

theorem head?_mem_list {α : Type} (l : List α) (c : α) (h : l.head? = some c) : c ∈ l := by
  cases l with
  | nil => simp at h
  | cons a as =>
    simp at h
    subst h
    simp

theorem getLast?_append_right {α : Type} (l1 l2 : List α) (h : l2 ≠ []) :
    (l1 ++ l2).getLast? = l2.getLast? := by
  rw [List.getLast?_eq_head?_reverse, List.getLast?_eq_head?_reverse, List.reverse_append]
  cases hr : l2.reverse with
  | nil => exact absurd (by simpa using hr) h
  | cons a as => simp

theorem getLast?_concat_eq {α : Type} (l : List α) (a : α) : (l ++ [a]).getLast? = some a := by
  rw [getLast?_append_right l [a] (by simp)]
  rfl

theorem parse_iso_some_imp_str (v : PyVal) (dt : PyDateTime)
    (h : parse_iso_datetime v = some dt) : ∃ s : String, v = .str s ∧ s ≠ "" := by
  cases v with
  | str s =>
    refine ⟨s, rfl, ?_⟩
    intro he
    subst he
    rw [show parse_iso_datetime (.str "") = Option.none from rfl] at h
    exact Option.noConfusion h
  | none =>
    rw [show parse_iso_datetime .none = Option.none from rfl] at h
    exact Option.noConfusion h
  | bool b =>
    cases b with
    | false =>
      rw [show parse_iso_datetime (.bool false) = Option.none from rfl] at h
      exact Option.noConfusion h
    | true =>
      rw [show parse_iso_datetime (.bool true) = Option.none from rfl] at h
      exact Option.noConfusion h
  | int n =>
    exfalso
    have hni : parse_iso_datetime (.int n) =
        fromisoformatChars (zNormalize (stripChars (pyStr (.int n)).data)) := rfl
    have hdata : (pyStr (.int n)).data = intToChars n := rfl
    rw [hni, hdata] at h
    have hstrip : stripChars (intToChars n) = intToChars n := by
      apply stripChars_eq_self_of_ends
      · intro c hc
        unfold intToChars at hc
        by_cases hn : n < 0
        · rw [if_pos hn] at hc
          simp at hc
          rw [← hc]
          decide
        · rw [if_neg hn] at hc
          simp only [List.nil_append] at hc
          exact (isDigitCh_props c (natToChars_all_digit n.natAbs c
            (head?_mem_list _ c hc))).1
      · intro c hc
        unfold intToChars at hc
        rw [getLast?_append_right _ _ (natToChars_ne_nil n.natAbs)] at hc
        have hmem : c ∈ natToChars n.natAbs := by
          rw [List.getLast?_eq_head?_reverse] at hc
          rw [← List.mem_reverse]
          exact head?_mem_list _ c hc
        exact (isDigitCh_props c (natToChars_all_digit n.natAbs c hmem)).1
    rw [hstrip] at h
    have hz : zNormalize (intToChars n) = intToChars n := by
      apply zNormalize_of_getLast_ne
      intro c hc
      unfold intToChars at hc
      rw [getLast?_append_right _ _ (natToChars_ne_nil n.natAbs)] at hc
      have hmem : c ∈ natToChars n.natAbs := by
        rw [List.getLast?_eq_head?_reverse] at hc
        rw [← List.mem_reverse]
        exact head?_mem_list _ c hc
      exact (isDigitCh_props c (natToChars_all_digit n.natAbs c hmem)).2.1
    rw [hz] at h
    unfold intToChars at h
    by_cases hn : n < 0
    · rw [if_pos hn] at h
      rw [List.cons_append, fromiso_nondigit_head '-' _ (by decide)] at h
      simp at h
    · rw [if_neg hn, List.nil_append,
        fromiso_all_digits (natToChars n.natAbs) (natToChars_all_digit n.natAbs)] at h
      simp at h
  | list xs =>
    exfalso
    have hdata : (pyStr (.list xs)).data =
        ('[' :: (", ".intercalate (pyReprList xs)).data) ++ [']'] := by
      show ("[" ++ ", ".intercalate (pyReprList xs) ++ "]").data = _
      rw [String.data_append, String.data_append]
      rfl
    have hni : parse_iso_datetime (.list xs) =
        fromisoformatChars (zNormalize (stripChars (pyStr (.list xs)).data)) := rfl
    rw [hni, hdata] at h
    have hstrip : stripChars (('[' :: (", ".intercalate (pyReprList xs)).data) ++ [']']) =
        ('[' :: (", ".intercalate (pyReprList xs)).data) ++ [']'] := by
      apply stripChars_eq_self_of_ends
      · intro c hc
        rw [List.cons_append] at hc
        simp at hc
        rw [← hc]
        decide
      · intro c hc
        rw [getLast?_concat_eq] at hc
        injection hc with hc2
        rw [← hc2]
        decide
    rw [hstrip] at h
    have hz : zNormalize (('[' :: (", ".intercalate (pyReprList xs)).data) ++ [']']) =
        ('[' :: (", ".intercalate (pyReprList xs)).data) ++ [']'] := by
      apply zNormalize_of_getLast_ne
      intro c hc
      rw [getLast?_concat_eq] at hc
      injection hc with hc2
      rw [← hc2]
      decide
    rw [hz, List.cons_append, fromiso_nondigit_head '[' _ (by decide)] at h
    simp at h
  | dict xs =>
    exfalso
    have hdata : (pyStr (.dict xs)).data =
        ('\x7b' :: (", ".intercalate (pyReprDict xs)).data) ++ ['\x7d'] := by
      show ("\x7b" ++ ", ".intercalate (pyReprDict xs) ++ "\x7d").data = _
      rw [String.data_append, String.data_append]
      rfl
    have hni : parse_iso_datetime (.dict xs) =
        fromisoformatChars (zNormalize (stripChars (pyStr (.dict xs)).data)) := rfl
    rw [hni, hdata] at h
    have hstrip : stripChars (('\x7b' :: (", ".intercalate (pyReprDict xs)).data) ++ ['\x7d']) =
        ('\x7b' :: (", ".intercalate (pyReprDict xs)).data) ++ ['\x7d'] := by
      apply stripChars_eq_self_of_ends
      · intro c hc
        rw [List.cons_append] at hc
        simp at hc
        rw [← hc]
        decide
      · intro c hc
        rw [getLast?_concat_eq] at hc
        injection hc with hc2
        rw [← hc2]
        decide
    rw [hstrip] at h
    have hz : zNormalize (('\x7b' :: (", ".intercalate (pyReprDict xs)).data) ++ ['\x7d']) =
        ('\x7b' :: (", ".intercalate (pyReprDict xs)).data) ++ ['\x7d'] := by
      apply zNormalize_of_getLast_ne
      intro c hc
      rw [getLast?_concat_eq] at hc
      injection hc with hc2
      rw [← hc2]
      decide
    rw [hz, List.cons_append, fromiso_nondigit_head '\x7b' _ (by decide)] at h
    simp at h

theorem in_transit_completed_imp_has_eta (t : Nat × Nat × Nat) (v : PyVal)
    (h : (match (parse_iso_datetime v).map dtDate with
          | some d => dateLe d t
          | Option.none => false) = true) :
    optStrTruthy (bopFormatDateOnly v) = true := by
  cases hp : parse_iso_datetime v with
  | none => rw [hp] at h; simp at h
  | some dt =>
    obtain ⟨s, hv, hs⟩ := parse_iso_some_imp_str v dt hp
    subst hv
    have htr : (PyVal.str s).truthy = true := by
      simp only [PyVal.truthy]
      simpa using hs
    obtain ⟨r, hr, hrne⟩ := _format_date_only_some_ne (.str s) htr
    have hne : isNoneOrEmptyStr (.str s) = false := by
      cases s with
      | mk d =>
        cases d with
        | nil => exact absurd rfl hs
        | cons a as => rfl
    unfold bopFormatDateOnly
    rw [hne]
    simp only [Bool.false_eq_true, if_false]
    rw [hr]
    simpa [optStrTruthy] using hrne

/-- C4: an in_transit stage recording has_eta = false is never shown
active; its state is forced to upcoming even when it is the first
incomplete stage. -/
theorem in_transit_upcoming_without_eta (today : Nat × Nat × Nat) (env : PyVal)
    (p : Progress) (st : Stage)
    (hb : build_order_progress today env = .ok p)
    (hs : p.stages.get? 3 = some st)
    (he : st.has_eta = some false) :
    st.state = "upcoming" := by
  obtain ⟨f, hf, hp⟩ := build_ok_elim hb
  subst hp
  rw [computeProgress_stages, assignStates_get?] at hs
  have h3 := preStages_get3_fields today f
  cases hg : (preStages today f).get? 3 with
  | none =>
    rw [hg] at hs
    exact Option.noConfusion hs
  | some s3 =>
    rw [hg] at hs h3
    have hst : st = assignOne (firstIncompleteIdx (preStages today f)) 3 s3 := by
      have h2 : some (assignOne (firstIncompleteIdx (preStages today f)) 3 s3) = some st := hs
      injection h2 with h3x
      exact h3x.symm
    have h3c : some (s3.key, s3.completed, s3.has_eta) =
        some ("in_transit",
          (match (parse_iso_datetime f.eta_raw).map dtDate with
           | some d => dateLe d today
           | Option.none => false),
          some (optStrTruthy (bopFormatDateOnly f.eta_raw))) := h3
    injection h3c with h3d
    simp only [Prod.mk.injEq] at h3d
    obtain ⟨hkey, hcomp_eq, heta_eq⟩ := h3d
    have he2 : optStrTruthy (bopFormatDateOnly f.eta_raw) = false := by
      have hx : some (optStrTruthy (bopFormatDateOnly f.eta_raw)) = some false := by
        rw [← heta_eq, ← assignOne_has_eta (firstIncompleteIdx (preStages today f)) 3 s3, ← hst]
        exact he
      injection hx
    have hcomp : s3.completed = false := by
      cases hmc : (match (parse_iso_datetime f.eta_raw).map dtDate with
          | some d => dateLe d today
          | Option.none => false) with
      | false => rw [hcomp_eq, hmc]
      | true =>
        exact absurd (in_transit_completed_imp_has_eta today f.eta_raw hmc)
          (by rw [he2]; simp)
    rw [hst]
    unfold assignOne
    rw [hkey, hcomp, heta_eq, he2]
    rfl

/-- Witness for C4 on the no-ETA envelope whose first incomplete stage
is in_transit. -/
theorem in_transit_upcoming_without_eta_witness : stNoEta3.state = "upcoming" := by
  have hb : build_order_progress today0 envNoEta = .ok (computeProgress today0 fNoEta) := by rfl
  have hs : (computeProgress today0 fNoEta).stages.get? 3 = some stNoEta3 := by rfl
  exact in_transit_upcoming_without_eta today0 envNoEta _ stNoEta3 hb hs (by rfl)

/-- Active-state count over any seven-stage list with the engine's fixed
keys: one active stage, except zero when everything is complete or when
the first incomplete stage is in_transit with has_eta = false. -/
theorem active_count_seven {c0 c1 c2 c3 c4 c5 c6 e : Bool}
    {lb0 ds0 : String} {ts0 ml0 : Option String} {mv0 : PyVal}
    {he0 : Option Bool}
    {lb1 ds1 : String} {ts1 ml1 : Option String} {mv1 : PyVal}
    {he1 : Option Bool}
    {lb2 ds2 : String} {ts2 ml2 : Option String} {mv2 : PyVal}
    {he2 : Option Bool}
    {lb3 ds3 : String} {ts3 ml3 : Option String} {mv3 : PyVal}
    {lb4 ds4 : String} {ts4 ml4 : Option String} {mv4 : PyVal}
    {he4 : Option Bool}
    {lb5 ds5 : String} {ts5 ml5 : Option String} {mv5 : PyVal}
    {he5 : Option Bool}
    {lb6 ds6 : String} {ts6 ml6 : Option String} {mv6 : PyVal}
    {he6 : Option Bool} :
    (assignStates
      [⟨"order_placed", lb0, ds0, c0, ts0, ml0, mv0, he0⟩,
       ⟨"vin_assigned", lb1, ds1, c1, ts1, ml1, mv1, he1⟩,
       ⟨"production", lb2, ds2, c2, ts2, ml2, mv2, he2⟩,
       ⟨"in_transit", lb3, ds3, c3, ts3, ml3, mv3, some e⟩,
       ⟨"registration", lb4, ds4, c4, ts4, ml4, mv4, he4⟩,
       ⟨"ready", lb5, ds5, c5, ts5, ml5, mv5, he5⟩,
       ⟨"delivered", lb6, ds6, c6, ts6, ml6, mv6, he6⟩]).countP (fun s => s.state == "active") =
      (if ([⟨"order_placed", lb0, ds0, c0, ts0, ml0, mv0, he0⟩,
       ⟨"vin_assigned", lb1, ds1, c1, ts1, ml1, mv1, he1⟩,
       ⟨"production", lb2, ds2, c2, ts2, ml2, mv2, he2⟩,
       ⟨"in_transit", lb3, ds3, c3, ts3, ml3, mv3, some e⟩,
       ⟨"registration", lb4, ds4, c4, ts4, ml4, mv4, he4⟩,
       ⟨"ready", lb5, ds5, c5, ts5, ml5, mv5, he5⟩,
       ⟨"delivered", lb6, ds6, c6, ts6, ml6, mv6, he6⟩] : List PreStage).all (fun s => s.completed) then 0
       else if firstIncompleteIdx
           [⟨"order_placed", lb0, ds0, c0, ts0, ml0, mv0, he0⟩,
       ⟨"vin_assigned", lb1, ds1, c1, ts1, ml1, mv1, he1⟩,
       ⟨"production", lb2, ds2, c2, ts2, ml2, mv2, he2⟩,
       ⟨"in_transit", lb3, ds3, c3, ts3, ml3, mv3, some e⟩,
       ⟨"registration", lb4, ds4, c4, ts4, ml4, mv4, he4⟩,
       ⟨"ready", lb5, ds5, c5, ts5, ml5, mv5, he5⟩,
       ⟨"delivered", lb6, ds6, c6, ts6, ml6, mv6, he6⟩] = 3 ∧ e = false then 0
       else 1) := by
  cases c0 <;> cases c1 <;> cases c2 <;> cases c3 <;> cases c4 <;> cases c5 <;> cases c6 <;>
    cases e <;> rfl

theorem assignStatesAux_all (fi : Nat) (ps : List PreStage) :
    ∀ idx, (assignStatesAux fi idx ps).all (fun s => s.completed) =
      ps.all (fun s => s.completed) := by
  induction ps with
  | nil => intro idx; rfl
  | cons s rest ih =>
    intro idx
    simp only [assignStatesAux, List.all_cons, assignOne_completed, ih (idx + 1)]

theorem assignStates_all (ps : List PreStage) :
    (assignStates ps).all (fun s => s.completed) = ps.all (fun s => s.completed) :=
  assignStatesAux_all _ ps 0

theorem assignStatesAux_fi (fi : Nat) (ps : List PreStage) :
    ∀ idx, stagesFirstIncomplete (assignStatesAux fi idx ps) = firstIncompleteIdx ps := by
  induction ps with
  | nil => intro idx; rfl
  | cons s rest ih =>
    intro idx
    simp only [assignStatesAux, stagesFirstIncomplete, firstIncompleteIdx,
      assignOne_completed, ih (idx + 1)]

theorem assignStates_fi (ps : List PreStage) :
    stagesFirstIncomplete (assignStates ps) = firstIncompleteIdx ps :=
  assignStatesAux_fi _ ps 0

theorem assignStates_get3_hasEta (ps : List PreStage) :
    ((assignStates ps).get? 3).bind (fun s => s.has_eta) =
      (ps.get? 3).bind (fun s => s.has_eta) := by
  rw [assignStates_get?]
  cases ps.get? 3 <;> simp [assignOne_has_eta]

/-- C2 (amended): the build output carries exactly one active stage,
except zero when all seven are complete or when the first incomplete
stage is in_transit (index 3) recording has_eta = false. -/
theorem progress_active_count (today : Nat × Nat × Nat) (env : PyVal) (p : Progress)
    (hb : build_order_progress today env = .ok p) :
    p.stages.countP (fun s => s.state == "active") =
      (if p.stages.all (fun s => s.completed) then 0
       else if stagesFirstIncomplete p.stages = 3 ∧
           ((p.stages.get? 3).bind (fun s => s.has_eta)).getD false = false then 0
       else 1) := by
  obtain ⟨f, hf, hp⟩ := build_ok_elim hb
  subst hp
  rw [computeProgress_stages, assignStates_all, assignStates_fi, assignStates_get3_hasEta]
  exact active_count_seven

/-- Counterexample for C2: three stages complete and four not, yet no
stage is active (the first incomplete stage is in_transit with no ETA). -/
theorem progress_zero_active_with_partial_completion :
    (build_order_progress today0 envNoEta).map (fun p =>
      (p.stages.countP (fun s => s.state == "active"), p.completed, p.total)) =
      .ok (0, 3, 7) := by decide

/-- Witness for C2 on an envelope whose first incomplete stage is
vin_assigned: exactly one active stage. -/
theorem progress_active_count_witness :
    (computeProgress today0 fReadyNoVin).stages.countP (fun s => s.state == "active") = 1 := by
  have hb : build_order_progress today0 envReadyNoVin =
      .ok (computeProgress today0 fReadyNoVin) := by rfl
  have h := progress_active_count today0 envReadyNoVin _ hb
  rw [h]
  decide

theorem firstIncompleteIdx_all (ps : List PreStage)
    (h : ps.all (fun s => s.completed) = true) : firstIncompleteIdx ps = ps.length := by
  induction ps with
  | nil => rfl
  | cons s rest ih =>
    rw [List.all_cons, Bool.and_eq_true] at h
    simp only [firstIncompleteIdx, h.1, if_true, List.length_cons, ih h.2]
    omega

theorem computeProgress_completed (t : Nat × Nat × Nat) (f : ProgressFields) :
    (computeProgress t f).completed = (preStages t f).countP (fun s => s.completed) := rfl

theorem computeProgress_percent_eq (t : Nat × Nat × Nat) (f : ProgressFields) :
    (computeProgress t f).percent =
      pyRound ⟨((preStages t f).countP (fun s => s.completed) : Int) * 100, 7⟩ := rfl

theorem computeProgress_active_eq (t : Nat × Nat × Nat) (f : ProgressFields) :
    (computeProgress t f).active_index = min (firstIncompleteIdx (preStages t f)) 6 := rfl

theorem preStages_len (t : Nat × Nat × Nat) (f : ProgressFields) :
    (preStages t f).length = 7 := rfl

/-- C3 (amended): with all seven stages completed the aggregates are
completed = 7 and percent = 100, but active_index is clamped to
total - 1 = 6, not 7. -/
theorem progress_all_complete_aggregates (today : Nat × Nat × Nat) (env : PyVal)
    (p : Progress)
    (hb : build_order_progress today env = .ok p)
    (hall : p.stages.all (fun s => s.completed) = true) :
    p.completed = 7 ∧ p.percent = 100 ∧ p.active_index = 6 := by
  obtain ⟨f, hf, hp⟩ := build_ok_elim hb
  subst hp
  rw [computeProgress_stages, assignStates_all] at hall
  have hcount : (preStages today f).countP (fun s => s.completed) = 7 := by
    rw [show (7 : Nat) = (preStages today f).length from rfl]
    exact List.countP_eq_length.mpr (List.all_eq_true.mp hall)
  refine ⟨?_, ?_, ?_⟩
  · rw [computeProgress_completed, hcount]
  · rw [computeProgress_percent_eq, hcount]
    decide
  · rw [computeProgress_active_eq, firstIncompleteIdx_all _ hall, preStages_len]
    decide

/-- Counterexample for C3: a fully completed order yields
active_index = 6 (clamped to total - 1), not 7 as the claim states. -/
theorem progress_all_complete_clamped_index :
    (build_order_progress today0 envAllComplete).map (fun p =>
      (p.stages.all (fun s => s.completed), p.completed, p.percent, p.active_index)) =
      .ok (true, 7, 100, 6) := by decide

/-- Witness for C3 on the fully populated delivered envelope. -/
theorem progress_all_complete_aggregates_witness :
    (computeProgress today0 fAllComplete).completed = 7 ∧
    (computeProgress today0 fAllComplete).percent = 100 ∧
    (computeProgress today0 fAllComplete).active_index = 6 := by
  have hb : build_order_progress today0 envAllComplete =
      .ok (computeProgress today0 fAllComplete) := by rfl
  exact progress_all_complete_aggregates today0 envAllComplete _ hb (by decide)

/-- Witness for C5: a concrete well-shaped envelope succeeds with all
keys mappings, and an envelope whose scheduling task is a truthy
non-mapping still does not raise. -/
theorem unpack_order_data_wellshaped_witness :
    (unpack_order_data (.dict [("order", .dict [("referenceNumber", .str "RN1")]),
      ("details", .dict [("tasks", .dict [
        ("scheduling", .dict [("apptDateTimeAddressStr", .str "2024-05-28T10:00:00")]),
        ("finalPayment", .dict [("data", .dict [("amountDue", .int 5)])])])])])).isOk = true ∧
    (unpack_order_data (.dict [("details", .dict [("tasks", .dict [
      ("scheduling", .str "oops")])])])).isOk = true := by
  constructor
  · obtain ⟨ctx, hctx, -⟩ :=
      unpack_order_data_wellshaped.2.1
        [("order", .dict [("referenceNumber", .str "RN1")]),
         ("details", .dict [("tasks", .dict [
           ("scheduling", .dict [("apptDateTimeAddressStr", .str "2024-05-28T10:00:00")]),
           ("finalPayment", .dict [("data", .dict [("amountDue", .int 5)])])])])]
        (by decide) (by decide) (by decide)
        (by intro tv htv; subst htv; decide)
    rw [hctx]
    rfl
  · obtain ⟨ctx, hctx, -⟩ :=
      unpack_order_data_wellshaped.1
        [("details", .dict [("tasks", .dict [("scheduling", .str "oops")])])]
        (by decide) (by decide)
    rw [hctx]
    rfl
